import Mathlib

/-!
Shallow embedding of the agent (slave) runtime core of this repository,
translated from `src/src/master/readonly_handler.cpp` (the `Slave` message
handlers together with the `Framework` and `Executor` in-memory models) and
the disk-usage / garbage-collection arithmetic.

Modelling conventions:
* libprocess pids are strings; the empty string stands for a
  default-constructed `UPID()` (the C++ truthiness test `if (executor->pid)`
  becomes `pid ≠ ""`).
* hashmaps become lists kept in insertion order; `hashmap::operator[]`
  insertion is replace-or-append, lookup is first match.
* message sends, isolator dispatches, checkpoint writes, timers and other
  side effects are reified as an `Output` trace returned next to the new
  state.
* fatal `CHECK` failures (process abort) are modelled as `Option.none`
  results where a claim depends on them; elsewhere a `CHECK` is a crashing
  precondition stated as a hypothesis of the theorems.
* the random `UUID::random()` values baked into `protobuf::createStatusUpdate`
  and `Framework::createExecutor` are passed in as explicit parameters.
-/

namespace Mesos

/-- Resource vector (cpus, mem): the protobuf `Resources` arithmetic used by
`Executor::addTask` / `Executor::removeTask`, componentwise over ℚ. -/
structure Resources where
  cpus : ℚ
  mem : ℚ
deriving DecidableEq, Repr

instance : Add Resources where
  add a b := ⟨a.cpus + b.cpus, a.mem + b.mem⟩

instance : Sub Resources where
  sub a b := ⟨a.cpus - b.cpus, a.mem - b.mem⟩

instance : Zero Resources where
  zero := ⟨0, 0⟩

def Resources.sum (l : List Resources) : Resources :=
  l.foldl (fun a b => a + b) 0

/-- Task states used by the agent core (`TASK_STAGING` .. `TASK_LOST`). -/
inductive TaskState where
  | TASK_STAGING
  | TASK_STARTING
  | TASK_RUNNING
  | TASK_FINISHED
  | TASK_FAILED
  | TASK_KILLED
  | TASK_LOST
deriving DecidableEq, Repr

/-- Modelled from the spec: the terminal subset of `TaskState` (§3 of the
spec), mirroring `protobuf::isTerminalState`, which lives outside `src/`. -/
def TaskState.isTerminal : TaskState → Bool
  | .TASK_FINISHED => true
  | .TASK_FAILED => true
  | .TASK_KILLED => true
  | .TASK_LOST => true
  | _ => false

structure ExecutorInfo where
  executor_id : String
  resources : Resources
deriving DecidableEq, Repr

/-- `TaskInfo` as received in `RunTask`: exactly one of `command` /
`executor` is set for a well-formed task (`CHECK` in
`Framework::getExecutorInfo`). -/
structure TaskInfo where
  task_id : String
  resources : Resources
  command : Option String
  executor : Option ExecutorInfo
deriving DecidableEq, Repr

/-- A default-constructed `TaskInfo()` protobuf (all fields unset). -/
def defaultTaskInfo : TaskInfo :=
  { task_id := "", resources := 0, command := none, executor := none }

/-- The launched `Task` record. `has_executor_id` mirrors the protobuf
optional `executor_id` field, which `protobuf::createTask` sets only for
tasks that are not command tasks. -/
structure Task where
  task_id : String
  state : TaskState
  resources : Resources
  has_executor_id : Bool
deriving DecidableEq, Repr

/-- Modelled from the spec: `protobuf::createTask` (outside `src/`) builds
the `Task` in the given state; per the spec's command-task synthesis (§9,
§3), the `executor_id` field is present exactly when the task is not a
command task. -/
def createTask (t : TaskInfo) (st : TaskState) : Task :=
  { task_id := t.task_id, state := st, resources := t.resources,
    has_executor_id := t.command.isNone }

structure StatusUpdate where
  framework_id : String
  task_id : String
  state : TaskState
  message : String
  uuid : String
  executor_id : Option String
deriving DecidableEq, Repr

/-- Modelled from the spec: `protobuf::createStatusUpdate` (outside `src/`)
assembles a `StatusUpdate`; its `UUID::random()` is passed in explicitly. -/
def createStatusUpdate (fwId taskId : String) (st : TaskState)
    (msg uuid : String) (exId : Option String) : StatusUpdate :=
  { framework_id := fwId, task_id := taskId, state := st, message := msg,
    uuid := uuid, executor_id := exId }

inductive ExecState where
  | REGISTERING
  | RUNNING
  | TERMINATING
  | TERMINATED
deriving DecidableEq, Repr

inductive FwState where
  | INITIALIZING
  | RUNNING
  | TERMINATING
deriving DecidableEq, Repr

/-- Modelled from the spec: bounded-ring constants (§6); the exact values are
declared outside `src/` and are irrelevant to the claims. -/
def MAX_COMPLETED_FRAMEWORKS : Nat := 50

def MAX_COMPLETED_EXECUTORS_PER_FRAMEWORK : Nat := 150

def MAX_COMPLETED_TASKS_PER_EXECUTOR : Nat := 1000

/-- Push into a bounded FIFO (`boost::circular_buffer`): append, dropping the
oldest entries beyond the capacity. -/
def ringPush (cap : Nat) (l : List α) (x : α) : List α :=
  let l1 := l ++ [x]
  if cap < l1.length then l1.drop (l1.length - cap) else l1

/-- Remove the first element satisfying `p` (hashmap `erase` on a list kept
in insertion order). -/
def removeFirst (p : α → Bool) : List α → List α
  | [] => []
  | x :: xs => if p x then xs else x :: removeFirst p xs

/-- The in-memory `Executor` model (C6). -/
structure Executor where
  id : String
  info : ExecutorInfo
  frameworkId : String
  uuid : String
  directory : String
  checkpoint : Bool
  pid : String
  state : ExecState
  resources : Resources
  queuedTasks : List TaskInfo
  launchedTasks : List Task
  completedTasks : List Task
  updates : List (String × String)
deriving DecidableEq, Repr

/-- `Executor::addTask` (`readonly_handler.cpp:3341-3353`): create the
launched `Task` in `TASK_STAGING`, insert it and grow the aggregate
resources. The C++ `CHECK(!launchedTasks.contains(...))` is a crashing
precondition; the model performs the post-`CHECK` insertion. -/
def Executor.addTask (e : Executor) (t : TaskInfo) : Executor :=
  { e with launchedTasks := e.launchedTasks ++ [createTask t .TASK_STAGING],
           resources := e.resources + t.resources }

/-- `Executor::removeTask` (`readonly_handler.cpp:3356-3373`): erase from the
queued tasks; if launched, subtract the task's resources, erase it and push
it onto the completed ring. -/
def Executor.removeTask (e : Executor) (taskId : String) : Executor :=
  let e1 := { e with
    queuedTasks := (removeFirst (fun t => t.task_id == taskId) e.queuedTasks) }
  match e1.launchedTasks.find? (fun t => t.task_id == taskId) with
  | some task =>
    { e1 with
      resources := e1.resources - task.resources,
      launchedTasks :=
        (removeFirst (fun t => t.task_id == taskId) e1.launchedTasks),
      completedTasks :=
        (ringPush MAX_COMPLETED_TASKS_PER_EXECUTOR e1.completedTasks task) }
  | none => e1

/-- `Executor::updateTaskState` (`readonly_handler.cpp:3431-3436`). -/
def Executor.updateTaskState (e : Executor) (taskId : String)
    (st : TaskState) : Executor :=
  { e with launchedTasks :=
      (e.launchedTasks.map
        (fun t => if t.task_id == taskId then { t with state := st } else t)) }

/-- Membership test used by `Framework::getExecutor(TaskID)`: the executor
knows the task through its queued, launched or pending-update maps. -/
def Executor.containsTask (e : Executor) (taskId : String) : Bool :=
  e.queuedTasks.any (fun t => t.task_id == taskId) ||
  e.launchedTasks.any (fun t => t.task_id == taskId) ||
  e.updates.any (fun p => p.1 == taskId)

structure FrameworkInfo where
  checkpoint : Bool
deriving DecidableEq, Repr

/-- The in-memory `Framework` model (C7). -/
structure Framework where
  id : String
  info : FrameworkInfo
  pid : String
  state : FwState
  executors : List Executor
  completedExecutors : List Executor
  pending : List TaskInfo
deriving DecidableEq, Repr

/-- Reified side effects of the handlers: message sends, isolator
dispatches, status-update-manager calls, checkpoint writes, timers, GC. -/
inductive Output where
  | unwatch (fwId exId : String)
  | watch (fwId exId : String)
  | fileAttach (dir : String)
  | forwardUpdate (u : StatusUpdate) (checkpoint : Bool) (pid : Option String)
  | dispatchResourcesChanged (fwId exId : String) (res : Resources)
  | dispatchLaunchExecutor (fwId exId uuid : String) (res : Resources)
  | dispatchKillExecutor (fwId exId : String)
  | armRegisterTimeout (fwId exId uuid : String)
  | armShutdownTimeout (fwId exId uuid : String)
  | sendShutdownExecutor (dest : String)
  | sendExecutorRegistered (dest : String)
  | sendExecutorReregistered (dest : String)
  | sendReconnectExecutor (dest : String)
  | sendRunTask (dest : String) (task : TaskInfo)
  | sendKillTask (dest fwId taskId : String)
  | sendExitedExecutor (dest fwId exId : String) (status : Int)
  | sendFrameworkToExecutor (dest data : String)
  | sendExecutorToFramework (dest data : String)
  | checkpointFrameworkInfo (fwId : String)
  | checkpointFrameworkPid (fwId pid : String)
  | checkpointExecutorInfo (fwId exId : String)
  | checkpointLibprocessPid (fwId exId pid : String)
  | checkpointTaskInfo (fwId exId uuid taskId : String)
  | gcSchedule (dir : String)
  | updatesCleanup (fwId : String)
  | recoveredSet
  | shutdownSelf
deriving DecidableEq, Repr

/-- `Framework::getExecutor(ExecutorID)` (`readonly_handler.cpp:3211`). -/
def Framework.getExecutor (fw : Framework) (exId : String) : Option Executor :=
  fw.executors.find? (fun e => e.id == exId)

/-- `Framework::getExecutor(TaskID)` (`readonly_handler.cpp:3221-3231`):
first executor whose queued, launched or pending-update maps know the
task. -/
def Framework.getExecutorByTask (fw : Framework) (taskId : String) :
    Option Executor :=
  fw.executors.find? (fun e => e.containsTask taskId)

/-- `Framework::getExecutorInfo` (`readonly_handler.cpp:3125-3174`): for a
command task synthesize an executor whose id equals the task id (and whose
resources are left unset, per the TODO in the source); otherwise return the
task's own executor. The `CHECK(task.has_executor() != task.has_command())`
is a crashing precondition. -/
def Framework.getExecutorInfo (task : TaskInfo) : ExecutorInfo :=
  match task.command with
  | some _ => { executor_id := task.task_id, resources := 0 }
  | none => task.executor.getD { executor_id := "", resources := 0 }

/-- `Framework::createExecutor` (`readonly_handler.cpp:3177-3196`): build a
fresh `REGISTERING` executor with an unset pid and the declared resources;
`UUID::random()` is the `uuid` parameter and the created work directory is a
path derived from the ids. -/
def Framework.createExecutor (fw : Framework) (einfo : ExecutorInfo)
    (uuid : String) : Framework × Executor × List Output :=
  let e : Executor :=
    { id := einfo.executor_id, info := einfo, frameworkId := fw.id,
      uuid := uuid,
      directory := fw.id ++ "/" ++ einfo.executor_id ++ "/" ++ uuid,
      checkpoint := fw.info.checkpoint, pid := "", state := .REGISTERING,
      resources := einfo.resources, queuedTasks := [], launchedTasks := [],
      completedTasks := [], updates := [] }
  let outs := if fw.info.checkpoint
    then [Output.checkpointExecutorInfo fw.id e.id] else []
  ({ fw with executors := fw.executors ++ [e] }, e, outs)

/-- `Framework::destroyExecutor` (`readonly_handler.cpp:3199-3208`). -/
def Framework.destroyExecutor (fw : Framework) (exId : String) : Framework :=
  match fw.executors.find? (fun e => e.id == exId) with
  | some e =>
    { fw with
      executors := (removeFirst (fun x => x.id == exId) fw.executors),
      completedExecutors :=
        (ringPush MAX_COMPLETED_EXECUTORS_PER_FRAMEWORK
          fw.completedExecutors e) }
  | none => fw

/-- `Executor::checkpointTask` (`readonly_handler.cpp:3376-3392`). -/
def Executor.checkpointTask (e : Executor) (t : TaskInfo) : List Output :=
  if e.checkpoint
  then [Output.checkpointTaskInfo e.frameworkId e.id e.uuid t.task_id]
  else []

/-- The `Framework` constructor (`readonly_handler.cpp:3082-3113`): state
starts `RUNNING` (INITIALIZING is skipped per the source TODO); when the
framework checkpoints, its info and pid are written through the checkpoint
store. -/
def newFramework (id : String) (info : FrameworkInfo) (pid : String) :
    Framework × List Output :=
  ({ id := id, info := info, pid := pid, state := .RUNNING, executors := [],
     completedExecutors := [], pending := [] },
   if info.checkpoint
   then [Output.checkpointFrameworkInfo id, Output.checkpointFrameworkPid id pid]
   else [])

/-- The `stats` counters of the slave that the claims mention. `tasks` is
the per-state counter map `stats.tasks[state]`. -/
structure Stats where
  invalidFrameworkMessages : Nat
  validFrameworkMessages : Nat
  invalidStatusUpdates : Nat
  validStatusUpdates : Nat
  tasks : TaskState → Nat

def Stats.bumpTask (st : Stats) (ts : TaskState) : Stats :=
  { st with tasks := (fun t => if t = ts then st.tasks t + 1 else st.tasks t) }

/-- The slave actor state: the framework map, the completed-framework ring,
counters and the flags/master context the handlers consult. -/
structure SlaveState where
  frameworks : List Framework
  completedFrameworks : List Framework
  stats : Stats
  flags_checkpoint : Bool
  flags_recover : String
  master : String

def SlaveState.incInvalidFrameworkMessages (s : SlaveState) : SlaveState :=
  { s with stats :=
      { s.stats with
        invalidFrameworkMessages := s.stats.invalidFrameworkMessages + 1 } }

def SlaveState.incValidFrameworkMessages (s : SlaveState) : SlaveState :=
  { s with stats :=
      { s.stats with
        validFrameworkMessages := s.stats.validFrameworkMessages + 1 } }

def SlaveState.incInvalidStatusUpdates (s : SlaveState) : SlaveState :=
  { s with stats :=
      { s.stats with
        invalidStatusUpdates := s.stats.invalidStatusUpdates + 1 } }

/-- `Slave::getFramework` (`readonly_handler.cpp:2492-2499`). -/
def SlaveState.getFramework (s : SlaveState) (fwId : String) :
    Option Framework :=
  s.frameworks.find? (fun f => f.id == fwId)

/-- Apply `g` to the framework(s) with the given id (pointer mutation of a
hashmap value in the C++). -/
def SlaveState.updateFw (s : SlaveState) (fwId : String)
    (g : Framework → Framework) : SlaveState :=
  { s with frameworks :=
      (s.frameworks.map (fun f => if f.id == fwId then g f else f)) }

/-- Replace the executor with id `exId` of framework `fwId` by `e1`. -/
def SlaveState.updateExecutor (s : SlaveState) (fwId exId : String)
    (e1 : Executor) : SlaveState :=
  s.updateFw fwId (fun f =>
    { f with executors :=
        (f.executors.map (fun e => if e.id == exId then e1 else e)) })

def SlaveState.replaceFramework (s : SlaveState) (fw : Framework) :
    SlaveState :=
  s.updateFw fw.id (fun _ => fw)

/-- Executor lookup through the slave state (framework by id, then executor
by id). -/
def execIn (s : SlaveState) (fwId exId : String) : Option Executor :=
  (s.getFramework fwId).bind (fun fw => fw.getExecutor exId)

/-- The executor-side mutation performed by `Slave::statusUpdate`
(`readonly_handler.cpp:2321-2336`) once framework and executor are found:
`updateTaskState`, record the pending ack in `updates`, and on a terminal
state `removeTask`. -/
def Executor.applyStatusUpdate (e : Executor) (taskId : String)
    (st : TaskState) (uuid : String) : Executor :=
  let e1 := e.updateTaskState taskId st
  let e2 := { e1 with updates := e1.updates ++ [(taskId, uuid)] }
  if st.isTerminal then e2.removeTask taskId else e2

/-- `Slave::forwardUpdate` (`readonly_handler.cpp:2361-2406`): capture the
executor pid (when known and set) and whether the framework checkpoints,
bump the per-state and valid counters, and hand the update to the status
update manager. -/
def Slave.forwardUpdate (s : SlaveState) (u : StatusUpdate)
    (executor : Option Executor) : SlaveState × List Output :=
  let pid : Option String :=
    match executor with
    | some e => if e.pid == "" then none else some e.pid
    | none => none
  let ckpt : Bool :=
    match executor with
    | some _ =>
      match s.getFramework u.framework_id with
      | some fw => fw.info.checkpoint
      | none => false
    | none => false
  let s1 := { s with stats :=
      { (s.stats.bumpTask u.state) with
        validStatusUpdates := s.stats.validStatusUpdates + 1 } }
  (s1, [Output.forwardUpdate u ckpt pid])

/-- `Slave::statusUpdate` (`readonly_handler.cpp:2310-2358`): on a known
framework and executor apply the executor mutation and, for a terminal
state, tell the isolator the new resources; on a failed lookup bump the
invalid counter. The update is forwarded to the status update manager in
every case. -/
def Slave.statusUpdate (s : SlaveState) (u : StatusUpdate) :
    SlaveState × List Output :=
  match s.getFramework u.framework_id with
  | none =>
    Slave.forwardUpdate s.incInvalidStatusUpdates u none
  | some fw =>
    match fw.getExecutorByTask u.task_id with
    | none =>
      Slave.forwardUpdate s.incInvalidStatusUpdates u none
    | some e =>
      let e1 := e.applyStatusUpdate u.task_id u.state u.uuid
      let s1 := s.updateExecutor fw.id e.id e1
      let outs1 := if u.state.isTerminal
        then [Output.dispatchResourcesChanged fw.id e.id e1.resources]
        else []
      let r := Slave.forwardUpdate s1 u (some e1)
      (r.1, outs1 ++ r.2)

/-- The second half of `Slave::cleanup(Framework*, Executor*)`
(`readonly_handler.cpp:2707-2715`): a framework left with no executors is
dropped from the frameworks map into the completed-frameworks ring. -/
def Slave.cleanupFrameworkSweep (s1 : SlaveState) (fwId : String) :
    SlaveState :=
  match s1.getFramework fwId with
  | none => s1
  | some fw2 =>
    if fw2.executors.isEmpty then
      { s1 with
        frameworks := (removeFirst (fun f => f.id == fwId) s1.frameworks),
        completedFrameworks :=
          (ringPush MAX_COMPLETED_FRAMEWORKS s1.completedFrameworks fw2) }
    else s1

/-- `Slave::cleanup(Framework*, Executor*)`
(`readonly_handler.cpp:2687-2722`): GC a terminated executor with no
pending updates (or a terminating framework) and destroy it; sweep an
empty framework; in `--recover=cleanup` mode shut down once no framework
is left. -/
def Slave.cleanup (s : SlaveState) (fwId exId : String) :
    SlaveState × List Output :=
  match s.getFramework fwId with
  | none => (s, [])
  | some fw =>
    match fw.getExecutor exId with
    | none => (s, [])
    | some e =>
      let destroy : Bool :=
        e.state == ExecState.TERMINATED &&
          (e.updates.isEmpty || fw.state == FwState.TERMINATING)
      let s1 := if destroy then s.replaceFramework (fw.destroyExecutor exId)
        else s
      let outs1 := if destroy then [Output.gcSchedule e.directory] else []
      let s2 := Slave.cleanupFrameworkSweep s1 fwId
      if s.flags_recover == "cleanup" && s2.frameworks.isEmpty
      then (s2, outs1 ++ [Output.shutdownSelf])
      else (s2, outs1)

/-- The ready-and-successful continuation
`Slave::_statusUpdateAcknowledgement` (`readonly_handler.cpp:2072-2121`):
drop the `(task_id, uuid)` entry from the owning executor's pending updates
and run `cleanup`. -/
def Slave.statusUpdateAckHandler (s : SlaveState) (taskId fwId uuid : String) :
    SlaveState × List Output :=
  match s.getFramework fwId with
  | none => (s, [])
  | some fw =>
    match fw.getExecutorByTask taskId with
    | none => (s, [])
    | some e =>
      let e1 := { e with
        updates := (removeFirst (fun p => p == (taskId, uuid)) e.updates) }
      Slave.cleanup (s.updateExecutor fw.id e.id e1) fwId e.id

/-- `Slave::killTask` (`readonly_handler.cpp:1888-1939`): unknown framework
or unknown executor synthesize a `TASK_LOST` through `statusUpdate`; an
executor still `REGISTERING` synthesizes `TASK_KILLED` ("Unregistered
executor"); otherwise a `KillTaskMessage` goes to the executor pid. -/
def Slave.killTask (s : SlaveState) (fwId taskId freshUuid : String) :
    SlaveState × List Output :=
  match s.getFramework fwId with
  | none =>
    Slave.statusUpdate s
      (createStatusUpdate fwId taskId .TASK_LOST "Cannot find framework"
        freshUuid none)
  | some fw =>
    match fw.getExecutorByTask taskId with
    | none =>
      Slave.statusUpdate s
        (createStatusUpdate fwId taskId .TASK_LOST "Cannot find executor"
          freshUuid none)
    | some e =>
      if e.state == ExecState.REGISTERING then
        Slave.statusUpdate s
          (createStatusUpdate fwId taskId .TASK_KILLED "Unregistered executor"
            freshUuid (some e.id))
      else
        (s, [Output.sendKillTask e.pid fwId taskId])

/-- `Slave::schedulerMessage` (`readonly_handler.cpp:1982-2025`): unknown
framework, unknown executor or an executor still `REGISTERING` bump the
invalid counter and drop; otherwise relay and bump the valid counter. -/
def Slave.schedulerMessage (s : SlaveState) (_slaveId fwId exId data : String) :
    SlaveState × List Output :=
  match s.getFramework fwId with
  | none => (s.incInvalidFrameworkMessages, [])
  | some fw =>
    match fw.getExecutor exId with
    | none => (s.incInvalidFrameworkMessages, [])
    | some e =>
      if e.state == ExecState.REGISTERING then
        (s.incInvalidFrameworkMessages, [])
      else
        (s.incValidFrameworkMessages,
         [Output.sendFrameworkToExecutor e.pid data])

/-- `Slave::executorMessage` (`readonly_handler.cpp:2443-2471`): unknown
framework bumps the invalid counter and drops; otherwise relay to the
framework pid and bump the valid counter. -/
def Slave.executorMessage (s : SlaveState) (_slaveId fwId _exId data : String) :
    SlaveState × List Output :=
  match s.getFramework fwId with
  | none => (s.incInvalidFrameworkMessages, [])
  | some fw =>
    (s.incValidFrameworkMessages, [Output.sendExecutorToFramework fw.pid data])

/-- `Slave::updateFramework` (`readonly_handler.cpp:2028-2048`). -/
def Slave.updateFrameworkPid (s : SlaveState) (fwId pid : String) :
    SlaveState × List Output :=
  match s.getFramework fwId with
  | none => (s, [])
  | some fw =>
    (s.replaceFramework { fw with pid := pid },
     if fw.info.checkpoint then [Output.checkpointFrameworkPid fwId pid]
     else [])

/-- `Slave::registerExecutor` (`readonly_handler.cpp:2124-2217`): unknown
framework, unknown executor or a state other than `REGISTERING` reply
`ShutdownExecutor` and change nothing; otherwise save the sender pid, go
`RUNNING`, checkpoint the libprocess pid when the framework checkpoints,
`addTask` every queued task, dispatch `resourcesChanged`, reply
`ExecutorRegistered`, flush the queued tasks as `RunTask` messages and
clear `queuedTasks`. -/
def Slave.registerExecutor (s : SlaveState) (sender fwId exId : String) :
    SlaveState × List Output :=
  match s.getFramework fwId with
  | none => (s, [Output.sendShutdownExecutor sender])
  | some fw =>
    match fw.getExecutor exId with
    | none => (s, [Output.sendShutdownExecutor sender])
    | some e =>
      if e.state == ExecState.REGISTERING then
        let e1 := { e with pid := sender, state := ExecState.RUNNING }
        let ckptOuts := if fw.info.checkpoint
          then [Output.checkpointLibprocessPid fwId exId sender] else []
        let e2 := e1.queuedTasks.foldl (fun acc t => acc.addTask t) e1
        let e3 := { e2 with queuedTasks := [] }
        let s1 := s.updateExecutor fwId exId e3
        let s2 := { s1 with stats :=
            (e1.queuedTasks.foldl (fun st _ => st.bumpTask .TASK_STAGING)
              s1.stats) }
        (s2,
         ckptOuts ++
           [Output.dispatchResourcesChanged fwId exId e2.resources,
            Output.sendExecutorRegistered sender] ++
           e1.queuedTasks.map (fun t => Output.sendRunTask sender t))
      else (s, [Output.sendShutdownExecutor sender])

/-- `Slave::reregisterExecutor` (`readonly_handler.cpp:2220-2278`). The two
`CHECK`s on the lookups abort the process on an unknown framework or
executor (`none`). Otherwise: save the sender pid, go `RUNNING`, send
`ExecutorReregistered`, replay each reported update through `statusUpdate`
unless its `(task_id, uuid)` is already pending, and relaunch every locally
`TASK_STAGING` launched task absent from the reported `tasks` — reading the
task to resend with `launched[task->task_id()]`, which default-constructs a
`TaskInfo` for the missing key. -/
def Slave.reregisterExecutor (s : SlaveState) (sender fwId exId : String)
    (tasks : List TaskInfo) (updates : List StatusUpdate) :
    Option (SlaveState × List Output) :=
  match s.getFramework fwId with
  | none => none
  | some fw =>
    match fw.getExecutor exId with
    | none => none
    | some e =>
      let e1 := { e with pid := sender, state := ExecState.RUNNING }
      let s1 := s.updateExecutor fwId exId e1
      let replay := updates.foldl
        (fun (acc : SlaveState × List Output) u =>
          let pending : Bool :=
            match execIn acc.1 fwId exId with
            | some ecur => ecur.updates.contains (u.task_id, u.uuid)
            | none => false
          if pending then acc
          else
            let r := Slave.statusUpdate acc.1 u
            (r.1, acc.2 ++ r.2))
        (s1, [])
      let launchedNow : List Task :=
        match execIn replay.1 fwId exId with
        | some ecur => ecur.launchedTasks
        | none => []
      let relaunch := launchedNow.foldl
        (fun (acc : List Output) task =>
          if task.state == TaskState.TASK_STAGING &&
              !(tasks.any (fun t => t.task_id == task.task_id)) then
            acc ++ [Output.sendRunTask e1.pid
              ((tasks.find? (fun t => t.task_id == task.task_id)).getD
                defaultTaskInfo)]
          else acc)
        []
      some (replay.1,
        [Output.sendExecutorReregistered sender] ++ replay.2 ++ relaunch)

/-- The launched-tasks loop of `Slave::executorTerminated`
(`readonly_handler.cpp:2622-2645`): walk the snapshot of launched tasks;
for every non-terminal task set the command-executor flag from the task's
missing `executor_id`, synthesize `TASK_FAILED` (when destroyed or command
task) or `TASK_LOST`, and feed it through `statusUpdate`. -/
def Slave.termLoopLaunched (fwId exId : String) (destroyed : Bool)
    (message : String) (fresh : String → String) :
    SlaveState × List Output × Bool → List Task →
    SlaveState × List Output × Bool
  | acc, [] => acc
  | acc, task :: rest =>
    if task.state.isTerminal then
      Slave.termLoopLaunched fwId exId destroyed message fresh acc rest
    else
      let isCmd : Bool := !task.has_executor_id
      let u := createStatusUpdate fwId task.task_id
        (if destroyed || isCmd then .TASK_FAILED else .TASK_LOST)
        message (fresh task.task_id) (some exId)
      let r := Slave.statusUpdate acc.1 u
      Slave.termLoopLaunched fwId exId destroyed message fresh
        (r.1, acc.2.1 ++ r.2, isCmd) rest

/-- The queued-tasks loop of `Slave::executorTerminated`
(`readonly_handler.cpp:2647-2669`): walk the snapshot of queued tasks,
setting the command-executor flag from `task.has_command()`, synthesizing
`TASK_FAILED` or `TASK_LOST` and feeding it through `statusUpdate`. -/
def Slave.termLoopQueued (fwId exId : String) (destroyed : Bool)
    (message : String) (fresh : String → String) :
    SlaveState × List Output × Bool → List TaskInfo →
    SlaveState × List Output × Bool
  | acc, [] => acc
  | acc, task :: rest =>
    let isCmd : Bool := task.command.isSome
    let u := createStatusUpdate fwId task.task_id
      (if destroyed || isCmd then .TASK_FAILED else .TASK_LOST)
      message (fresh task.task_id) (some exId)
    let r := Slave.statusUpdate acc.1 u
    Slave.termLoopQueued fwId exId destroyed message fresh
      (r.1, acc.2.1 ++ r.2, isCmd) rest

/-- `Slave::executorTerminated` (`readonly_handler.cpp:2566-2684`): stop
monitoring, mark the executor `TERMINATED`; unless the framework is
terminating, transition every live launched task and every queued task via
synthesized updates; send `ExitedExecutor` to the master when the
command-executor flag ended up false; then `cleanup`. -/
def Slave.executorTerminated (s : SlaveState) (fwId exId : String)
    (status : Int) (destroyed : Bool) (message : String)
    (fresh : String → String) : SlaveState × List Output :=
  let unw := [Output.unwatch fwId exId]
  match s.getFramework fwId with
  | none => (s, unw)
  | some fw =>
    match fw.getExecutor exId with
    | none => (s, unw)
    | some e =>
      let s1 := s.updateExecutor fwId exId { e with state := .TERMINATED }
      let afterLoops :=
        if fw.state == FwState.TERMINATING then (s1, [], false)
        else
          let r1 := Slave.termLoopLaunched fwId exId destroyed message fresh
            (s1, [], false) e.launchedTasks
          let queuedNow : List TaskInfo :=
            match execIn r1.1 fwId exId with
            | some ecur => ecur.queuedTasks
            | none => []
          Slave.termLoopQueued fwId exId destroyed message fresh r1 queuedNow
      let exitedOuts := if !afterLoops.2.2
        then [Output.sendExitedExecutor s.master fwId exId status] else []
      let r2 := Slave.cleanup afterLoops.1 fwId exId
      (r2.1, unw ++ afterLoops.2.1 ++ exitedOuts ++ r2.2)

/-- The message carried by the checkpoint-mismatch `TASK_LOST` of
`Slave::runTask` (`readonly_handler.cpp:1743-1749`). -/
def checkpointDisabledMessage : String :=
  "Could not launch the task because the framework expects checkpointing, but checkpointing is disabled on the slave"

/-- `hashmap::operator[] =` on a task-info map keyed by task id:
replace-or-append. -/
def insertTaskInfo (l : List TaskInfo) (t : TaskInfo) : List TaskInfo :=
  if l.any (fun x => x.task_id == t.task_id)
  then l.map (fun x => if x.task_id == t.task_id then t else x)
  else l ++ [t]

/-- The part of `Slave::runTask` after the framework has been looked up or
created (`readonly_handler.cpp:1764-1885`): check the framework state,
look up or create the executor (launching it and arming its registration
timeout), checkpoint the task, then queue it or add-and-send it. -/
def Slave.runTaskWithFramework (s0 : SlaveState) (fw : Framework)
    (fwId : String) (task : TaskInfo) (newUuid freshUuid : String)
    (newOuts : List Output) : SlaveState × List Output :=
  if fw.state == FwState.INITIALIZING then
    (s0.replaceFramework { fw with pending := fw.pending ++ [task] },
     newOuts)
  else if fw.state == FwState.TERMINATING then
    let r := Slave.statusUpdate s0
      (createStatusUpdate fwId task.task_id .TASK_LOST
        "Framework terminating" freshUuid none)
    (r.1, newOuts ++ r.2)
  else
    let einfo := Framework.getExecutorInfo task
    let exId := einfo.executor_id
    let found :=
      match fw.getExecutor exId with
      | some e => (s0, e, ([] : List Output))
      | none =>
        let r := fw.createExecutor einfo newUuid
        (s0.replaceFramework r.1, r.2.1,
         [Output.fileAttach r.2.1.directory] ++ r.2.2 ++
           [Output.dispatchLaunchExecutor fwId exId newUuid
              r.2.1.resources,
            Output.armRegisterTimeout fwId exId newUuid])
    let s1 := found.1
    let e := found.2.1
    let launchOuts := found.2.2
    if e.state == ExecState.TERMINATING ||
        e.state == ExecState.TERMINATED then
      let r := Slave.statusUpdate s1
        (createStatusUpdate fwId task.task_id .TASK_LOST
          "Executor terminating/terminated" freshUuid none)
      (r.1, newOuts ++ launchOuts ++ r.2)
    else
      let ctOuts := e.checkpointTask task
      let s2 := { s1 with stats := (s1.stats.bumpTask .TASK_STAGING) }
      if e.state == ExecState.REGISTERING then
        (s2.updateExecutor fwId exId
           { e with queuedTasks := (insertTaskInfo e.queuedTasks task) },
         newOuts ++ launchOuts ++ ctOuts)
      else
        let e1 := e.addTask task
        (s2.updateExecutor fwId exId e1,
         newOuts ++ launchOuts ++ ctOuts ++
           [Output.dispatchResourcesChanged fwId exId e1.resources,
            Output.sendRunTask e.pid task])

/-- `Slave::runTask` (`readonly_handler.cpp:1729-1885`): a checkpoint
mismatch synthesizes `TASK_LOST` and returns; otherwise the framework is
looked up or created and the placement continues in
`runTaskWithFramework`. `newUuid` stands for the `UUID::random()` of
`createExecutor` and `freshUuid` for the one inside
`createStatusUpdate`. -/
def Slave.runTask (s : SlaveState) (frameworkInfo : FrameworkInfo)
    (fwId pid : String) (task : TaskInfo) (newUuid freshUuid : String) :
    SlaveState × List Output :=
  if frameworkInfo.checkpoint && !s.flags_checkpoint then
    Slave.statusUpdate s
      (createStatusUpdate fwId task.task_id .TASK_LOST
        checkpointDisabledMessage freshUuid none)
  else
    match s.getFramework fwId with
    | some fw =>
      Slave.runTaskWithFramework s fw fwId task newUuid freshUuid []
    | none =>
      let r := newFramework fwId frameworkInfo pid
      Slave.runTaskWithFramework
        { s with frameworks := s.frameworks ++ [r.1] } r.1 fwId task
        newUuid freshUuid r.2

/-- `Slave::shutdownExecutor` (`readonly_handler.cpp:2778-2796`): mark the
executor `TERMINATING`, send `ShutdownExecutor` to its pid (dropped on the
floor when unset) and arm the shutdown grace-period timer. -/
def Slave.shutdownExecutorOuts (fwId : String) (e : Executor) : List Output :=
  [Output.sendShutdownExecutor e.pid,
   Output.armShutdownTimeout fwId e.id e.uuid]

/-- `Slave::shutdownFramework` (`readonly_handler.cpp:1947-1979`): ignore a
sender other than the registered master (in-process calls have an empty
`from`); otherwise mark the framework `TERMINATING`, `shutdownExecutor`
every executor and close the framework's status update streams. -/
def Slave.shutdownFramework (s : SlaveState) (sender fwId : String) :
    SlaveState × List Output :=
  if sender != "" && sender != s.master then (s, [])
  else
    match s.getFramework fwId with
    | none => (s, [Output.updatesCleanup fwId])
    | some fw =>
      let fw1 := { fw with state := FwState.TERMINATING }
      let fw2 := { fw1 with executors :=
          (fw1.executors.map (fun e => { e with state := .TERMINATING })) }
      let outs := fw1.executors.foldl
        (fun acc e => acc ++ Slave.shutdownExecutorOuts fwId e) []
      (s.replaceFramework fw2, outs ++ [Output.updatesCleanup fwId])

/-- `Slave::registerExecutorTimeout` (`readonly_handler.cpp:2841-2888`):
ignore vanished frameworks or executors and stale run uuids; an executor
that never registered (unset pid) is marked `TERMINATING` and killed via
the isolator. -/
def Slave.registerExecutorTimeout (s : SlaveState) (fwId exId uuid : String) :
    SlaveState × List Output :=
  match s.getFramework fwId with
  | none => (s, [])
  | some fw =>
    match fw.getExecutor exId with
    | none => (s, [])
    | some e =>
      if e.uuid != uuid then (s, [])
      else if e.pid == "" then
        (s.updateExecutor fwId exId { e with state := .TERMINATING },
         [Output.dispatchKillExecutor fwId exId])
      else (s, [])

/-- `Slave::shutdownExecutorTimeout` (`readonly_handler.cpp:2799-2838`):
ignore vanished frameworks/executors and stale run uuids; otherwise ask
the isolator to kill the executor. -/
def Slave.shutdownExecutorTimeout (s : SlaveState) (fwId exId uuid : String) :
    SlaveState × List Output :=
  match s.getFramework fwId with
  | none => (s, [])
  | some fw =>
    match fw.getExecutor exId with
    | none => (s, [])
    | some e =>
      if e.uuid != uuid then (s, [])
      else (s, [Output.dispatchKillExecutor fwId exId])

/-- `Slave::reregisterExecutorTimeout` (`readonly_handler.cpp:2282-2304`):
kill every executor that never re-registered (unset pid) and signal the
end of recovery. -/
def Slave.reregisterExecutorTimeout (s : SlaveState) :
    SlaveState × List Output :=
  (s,
   (s.frameworks.foldl (fun acc fw =>
      acc ++ fw.executors.foldl (fun a e =>
        if e.pid == "" then a ++ [Output.dispatchKillExecutor fw.id e.id]
        else a) []) []) ++
     [Output.recoveredSet])

/-- Recovered per-task checkpoint records (`state::TaskState`). -/
structure TaskStateRec where
  id : String
  info : Option Task
  updates : List StatusUpdate
  acks : List String
deriving DecidableEq, Repr

/-- Recovered per-run checkpoint records (`state::RunState`). -/
structure RunStateRec where
  uuid : String
  libprocessPid : Option String
  forkedPid : Option String
  tasks : List TaskStateRec
deriving DecidableEq, Repr

/-- Recovered per-executor checkpoint records (`state::ExecutorState`). -/
structure ExecutorStateRec where
  id : String
  info : Option ExecutorInfo
  latest : Option String
  runs : List RunStateRec
deriving DecidableEq, Repr

/-- Recovered per-framework checkpoint records (`state::FrameworkState`). -/
structure FrameworkStateRec where
  id : String
  info : Option FrameworkInfo
  pid : Option String
  executors : List ExecutorStateRec
deriving DecidableEq, Repr

/-- The update-replay of `Executor::recoverTask`
(`readonly_handler.cpp:3411-3427`): apply each checkpointed update in
order; a terminal update removes the task (and, when acknowledged, its
pending-update entry) and stops the walk. -/
def Executor.recoverUpdates (e : Executor) (taskId : String)
    (acks : List String) : List StatusUpdate → Executor
  | [] => e
  | u :: rest =>
    let e1 := e.updateTaskState taskId u.state
    let e2 := { e1 with updates := e1.updates ++ [(taskId, u.uuid)] }
    if u.state.isTerminal then
      let e3 := e2.removeTask taskId
      if acks.contains u.uuid then
        { e3 with updates :=
            (removeFirst (fun p => p == (taskId, u.uuid)) e3.updates) }
      else e3
    else Executor.recoverUpdates e2 taskId acks rest

/-- `Executor::recoverTask` (`readonly_handler.cpp:3395-3428`): skip when
the task info is gone, otherwise re-insert the launched task, grow the
resources and replay its checkpointed updates. -/
def Executor.recoverTask (e : Executor) (ts : TaskStateRec) : Executor :=
  match ts.info with
  | none => e
  | some task =>
    let e1 := { e with launchedTasks := e.launchedTasks ++ [task],
                       resources := e.resources + task.resources }
    Executor.recoverUpdates e1 ts.id ts.acks ts.updates

/-- `Framework::recoverExecutor` (`readonly_handler.cpp:3234-3286`): skip an
executor without recoverable info or latest run (`(fw, none)`); abort
(`none`) when the latest run record is missing or has a libprocess pid
without a forked pid (`CHECK`s); otherwise rebuild the executor in
`REGISTERING`, restore the libprocess pid if present and recover every
task of the latest run. -/
def Framework.recoverExecutor (fw : Framework) (es : ExecutorStateRec) :
    Option (Framework × Option Executor) :=
  match es.info, es.latest with
  | some info, some uuid =>
    (match es.runs.find? (fun r => r.uuid == uuid) with
     | none => none
     | some run =>
       if run.libprocessPid.isSome && run.forkedPid.isNone then none
       else
         let e0 : Executor :=
           { id := info.executor_id, info := info, frameworkId := fw.id,
             uuid := uuid,
             directory := fw.id ++ "/" ++ info.executor_id ++ "/" ++ uuid,
             checkpoint := fw.info.checkpoint,
             pid := (run.libprocessPid.getD ""), state := .REGISTERING,
             resources := info.resources, queuedTasks := [],
             launchedTasks := [], completedTasks := [], updates := [] }
         let e1 := run.tasks.foldl (fun acc t => acc.recoverTask t) e0
         some ({ fw with executors := fw.executors ++ [e1] }, some e1))
  | _, _ => some (fw, none)

/-- One executor of the recovery loop of
`Slave::recover(FrameworkState, reconnect)`
(`readonly_handler.cpp:3024-3077`): recover it (`none` on a `CHECK`
abort), then attach/watch it and reconnect, shut down or kill it depending
on the mode and its recovered pid. -/
def Slave.recoverExecutorStep (fsId : String) (reconnect : Bool)
    (acc : Option (Framework × List Output)) (es : ExecutorStateRec) :
    Option (Framework × List Output) :=
  match acc with
  | none => none
  | some fo =>
    match fo.1.recoverExecutor es with
    | none => none
    | some (fw1, none) => some (fw1, fo.2)
    | some (fw1, some e) =>
      let base := fo.2 ++
        [Output.fileAttach e.directory, Output.watch fsId e.id]
      if reconnect then
        if e.pid == "" then some (fw1, base)
        else some (fw1, base ++ [Output.sendReconnectExecutor e.pid])
      else
        if e.pid == "" then
          some (fw1, base ++ [Output.dispatchKillExecutor fsId e.id])
        else
          some
            ({ fw1 with executors :=
                (fw1.executors.map (fun x =>
                  if x.id == e.id then { x with state := .TERMINATING }
                  else x)) },
             base ++ Slave.shutdownExecutorOuts fsId
               { e with state := .TERMINATING })

/-- `Slave::recover(FrameworkState, reconnect)`
(`readonly_handler.cpp:3013-3078`): rebuild the framework (aborting on the
`CHECK`s for missing info/pid or a duplicate framework) and recover each
executor through `recoverExecutorStep`. -/
def Slave.recoverFramework (s : SlaveState) (fs : FrameworkStateRec)
    (reconnect : Bool) : Option (SlaveState × List Output) :=
  match fs.info, fs.pid with
  | some info, some pid =>
    if (s.getFramework fs.id).isSome then none
    else
      let r0 := newFramework fs.id info pid
      let step := fs.executors.foldl
        (Slave.recoverExecutorStep fs.id reconnect) (some (r0.1, r0.2))
      match step with
      | none => none
      | some (fw, outs) =>
        some ({ s with frameworks := s.frameworks ++ [fw] }, outs)
  | _, _ => none

/-- The disk-usage → maximum-age conversion `Slave::age`
(`readonly_handler.cpp:2892-2895`): `Weeks(gc_delay.weeks() * (1.0 - usage))`,
in weeks over ℚ. -/
def Slave.age (gcDelayWeeks usage : ℚ) : ℚ :=
  gcDelayWeeks * (1 - usage)

/-- The argument (in weeks) that `Slave::_checkDiskUsage`
(`readonly_handler.cpp:2907-2932`) passes to `gc.prune` when the usage
sample is ready: `Weeks(flags.gc_delay.weeks() - age(use).weeks())`. -/
def Slave.checkDiskUsagePruneArg (gcDelayWeeks usage : ℚ) : ℚ :=
  gcDelayWeeks - Slave.age gcDelayWeeks usage

def Stats.zero : Stats :=
  { invalidFrameworkMessages := 0, validFrameworkMessages := 0,
    invalidStatusUpdates := 0, validStatusUpdates := 0,
    tasks := (fun _ => 0) }

/-- The freshly booted slave actor: no frameworks, zeroed counters. -/
def initialSlave (flagsCkpt : Bool) (recoverMode master : String) :
    SlaveState :=
  { frameworks := [], completedFrameworks := [], stats := Stats.zero,
    flags_checkpoint := flagsCkpt, flags_recover := recoverMode,
    master := master }

/-- Reachability of slave actor states: a freshly booted slave followed by
any sequence of the modelled handler invocations. Executor (re)registration
messages carry a live sender, so their `from` pid is non-empty; the
aborting handlers (`reregisterExecutor`, `recoverFramework`) only
contribute a successor when their `CHECK`s pass. -/
inductive Reaches : SlaveState → Prop where
  | boot (flagsCkpt : Bool) (recoverMode master : String) :
      Reaches (initialSlave flagsCkpt recoverMode master)
  | runTask {s} (fi : FrameworkInfo) (fwId pid : String) (task : TaskInfo)
      (newUuid freshUuid : String) : Reaches s →
      Reaches (Slave.runTask s fi fwId pid task newUuid freshUuid).1
  | registerExecutor {s} (sender fwId exId : String) : Reaches s →
      sender ≠ "" → Reaches (Slave.registerExecutor s sender fwId exId).1
  | reregisterExecutor {s r} (sender fwId exId : String)
      (tasks : List TaskInfo) (updates : List StatusUpdate) : Reaches s →
      sender ≠ "" →
      Slave.reregisterExecutor s sender fwId exId tasks updates = some r →
      Reaches r.1
  | statusUpdate {s} (u : StatusUpdate) : Reaches s →
      Reaches (Slave.statusUpdate s u).1
  | statusUpdateAck {s} (taskId fwId uuid : String) : Reaches s →
      Reaches (Slave.statusUpdateAckHandler s taskId fwId uuid).1
  | killTask {s} (fwId taskId freshUuid : String) : Reaches s →
      Reaches (Slave.killTask s fwId taskId freshUuid).1
  | executorTerminated {s} (fwId exId : String) (status : Int)
      (destroyed : Bool) (message : String) (fresh : String → String) :
      Reaches s →
      Reaches
        (Slave.executorTerminated s fwId exId status destroyed message
          fresh).1
  | registerExecutorTimeout {s} (fwId exId uuid : String) : Reaches s →
      Reaches (Slave.registerExecutorTimeout s fwId exId uuid).1
  | shutdownExecutorTimeout {s} (fwId exId uuid : String) : Reaches s →
      Reaches (Slave.shutdownExecutorTimeout s fwId exId uuid).1
  | reregisterExecutorTimeout {s} : Reaches s →
      Reaches (Slave.reregisterExecutorTimeout s).1
  | shutdownFramework {s} (sender fwId : String) : Reaches s →
      Reaches (Slave.shutdownFramework s sender fwId).1
  | updateFrameworkPid {s} (fwId pid : String) : Reaches s →
      Reaches (Slave.updateFrameworkPid s fwId pid).1
  | schedulerMessage {s} (slaveId fwId exId data : String) : Reaches s →
      Reaches (Slave.schedulerMessage s slaveId fwId exId data).1
  | executorMessage {s} (slaveId fwId exId data : String) : Reaches s →
      Reaches (Slave.executorMessage s slaveId fwId exId data).1
  | recoverFramework {s r} (fs : FrameworkStateRec) (reconnect : Bool) :
      Reaches s → Slave.recoverFramework s fs reconnect = some r →
      Reaches r.1

/-- Claim P6 / (I7) as stated by the spec: the executor pid is set iff the
executor state is `RUNNING` or `TERMINATING`. -/
def Executor.pidStateOk (e : Executor) : Bool :=
  (!(e.pid == "")) ==
    (e.state == ExecState.RUNNING || e.state == ExecState.TERMINATING)

/-- The claimed pid/state equivalence over every executor the agent
tracks. -/
def pidStateConsistent (s : SlaveState) : Bool :=
  s.frameworks.all (fun fw => fw.executors.all (fun e => e.pidStateOk))

/-- The direction of P6 the code maintains: a `RUNNING` executor has its
pid set. -/
def runningHasPid (e : Executor) : Prop :=
  e.state = ExecState.RUNNING → e.pid ≠ ""

def fwOk (fw : Framework) : Prop :=
  ∀ e ∈ fw.executors, runningHasPid e

def stateOk (s : SlaveState) : Prop :=
  ∀ fw ∈ s.frameworks, fwOk fw

/-- Claim P1 / (I5): the executor's aggregate resources equal its own
declared resources plus the resources of its launched tasks. -/
def resourcesConsistent (e : Executor) : Prop :=
  e.resources =
    e.info.resources + Resources.sum (e.launchedTasks.map (fun t => t.resources))

/-- Spec-side reading of "command executor" for claim C5: an executor one of
whose tasks (queued or launched) is a command task. -/
def isCommandExecutorSpec (e : Executor) : Bool :=
  e.queuedTasks.any (fun t => t.command.isSome) ||
  e.launchedTasks.any (fun t => !t.has_executor_id)

/-- The status updates claim C5 says `executorTerminated` feeds into
`statusUpdate`: one per non-terminal launched task, then one per queued
task, `TASK_FAILED` when destroyed or a command task and `TASK_LOST`
otherwise. -/
def claimedTerminationUpdates (fwId : String) (e : Executor)
    (destroyed : Bool) (msg : String) (fresh : String → String) :
    List StatusUpdate :=
  ((e.launchedTasks.filter (fun t => !t.state.isTerminal)).map (fun t =>
      createStatusUpdate fwId t.task_id
        (if destroyed || !t.has_executor_id then .TASK_FAILED else .TASK_LOST)
        msg (fresh t.task_id) (some e.id))) ++
  (e.queuedTasks.map (fun t =>
      createStatusUpdate fwId t.task_id
        (if destroyed || t.command.isSome then .TASK_FAILED else .TASK_LOST)
        msg (fresh t.task_id) (some e.id)))

/-- The final value of the `isCommandExecutor` flag of
`Slave::executorTerminated`: the command-ness of the last live task
processed (non-terminal launched tasks first, then all queued tasks),
`false` when there is none. -/
def lastCmdFlag (e : Executor) : Bool :=
  (((e.launchedTasks.filter (fun t => !t.state.isTerminal)).map
      (fun t => !t.has_executor_id)) ++
    (e.queuedTasks.map (fun t => t.command.isSome))).foldl
    (fun _ b => b) false

/-- Whether an output is a hand-off to the status update manager. -/
def Output.isForward : Output → Bool
  | .forwardUpdate _ _ _ => true
  | _ => false

/-- The (framework id, executor ids) skeleton of the slave state, used to
state that a handler creates no framework and no executor. -/
def frameworksSkeleton (s : SlaveState) : List (String × List String) :=
  s.frameworks.map (fun fw => (fw.id, fw.executors.map (fun e => e.id)))

def exInfo1 : ExecutorInfo :=
  { executor_id := "e1", resources := { cpus := 1, mem := 32 } }

/-- A task with an explicit executor (not a command task). -/
def taskInfo1 : TaskInfo :=
  { task_id := "t1", resources := { cpus := 1, mem := 128 },
    command := none, executor := some exInfo1 }

/-- A command task. -/
def cmdTaskInfo : TaskInfo :=
  { task_id := "t2", resources := { cpus := 1, mem := 64 },
    command := some "sleep 1", executor := none }

def task1Staging : Task := createTask taskInfo1 .TASK_STAGING

def fwInfoNC : FrameworkInfo := { checkpoint := false }

/-- A literal executor used by the concrete scenarios. -/
def mkExec (st : ExecState) (pid : String) (queued : List TaskInfo)
    (launched : List Task) (upd : List (String × String)) : Executor :=
  { id := "e1", info := exInfo1, frameworkId := "f1", uuid := "run1",
    directory := "f1/e1/run1", checkpoint := false, pid := pid, state := st,
    resources := exInfo1.resources + Resources.sum (launched.map (fun t => t.resources)),
    queuedTasks := queued, launchedTasks := launched, completedTasks := [],
    updates := upd }

/-- A literal framework owning the given executors. -/
def mkFw (st : FwState) (execs : List Executor) : Framework :=
  { id := "f1", info := fwInfoNC, pid := "sched@1", state := st,
    executors := execs, completedExecutors := [], pending := [] }

/-- A literal slave state tracking the given frameworks. -/
def mkState (fws : List Framework) : SlaveState :=
  { frameworks := fws, completedFrameworks := [], stats := Stats.zero,
    flags_checkpoint := false, flags_recover := "reconnect",
    master := "master@host" }

def s0ex : SlaveState := initialSlave false "reconnect" "master@host"

/-- `runTask` on the fresh slave: creates framework `f1` and executor `e1`
(`REGISTERING`, pid unset) with `t1` queued. -/
def s1ex : SlaveState :=
  (Slave.runTask s0ex fwInfoNC "f1" "sched@1" taskInfo1 "run1" "U0").1

/-- `registerExecutorTimeout` on `s1ex`: the never-registered executor is
moved to `TERMINATING` with its pid still unset. -/
def s2ex : SlaveState :=
  (Slave.registerExecutorTimeout s1ex "f1" "e1" "run1").1

/-- `registerExecutor` on `s1ex`: the executor goes `RUNNING` with the
sender pid. -/
def s3ex : SlaveState :=
  (Slave.registerExecutor s1ex "exec@1" "f1" "e1").1

/-- C4 scenario: a re-registering executor with `t1` still `TASK_STAGING`
locally. -/
def c4State : SlaveState :=
  mkState [mkFw .RUNNING [mkExec .RUNNING "exec@1" [] [task1Staging] []]]

def c5Exec : Executor := mkExec .RUNNING "exec@1" [cmdTaskInfo] [] []

/-- C5 counterexample scenario: a command executor of a terminating
framework. -/
def c5State : SlaveState := mkState [mkFw .TERMINATING [c5Exec]]

def c5wExec : Executor := mkExec .RUNNING "exec@1" [] [task1Staging] []

/-- C5 witness scenario: a live framework whose executor has one
non-terminal launched task. -/
def c5wState : SlaveState := mkState [mkFw .RUNNING [c5wExec]]

/-- C5 counterexample scenario: a running framework whose command executor
has a single, already-terminal launched command task. -/
def c5cExec : Executor :=
  mkExec .RUNNING "exec@1" [] [createTask cmdTaskInfo .TASK_FINISHED] []

def c5cState : SlaveState := mkState [mkFw .RUNNING [c5cExec]]

def c6Exec : Executor := mkExec .REGISTERING "" [taskInfo1] [] []

def c6Fw : Framework := mkFw .RUNNING [c6Exec]

/-- C6 / C10 witness scenario: a `REGISTERING` executor with `t1` queued. -/
def c6State : SlaveState := mkState [c6Fw]

def c8Exec : Executor := mkExec .RUNNING "exec@1" [] [task1Staging] []

def c8Fw : Framework := mkFw .RUNNING [c8Exec]

/-- C8 witness scenario: a running executor with launched task `t1`. -/
def c8State : SlaveState := mkState [c8Fw]

/-- The terminal update finishing `t1`. -/
def c8Update : StatusUpdate :=
  createStatusUpdate "f1" "t1" .TASK_FINISHED "ok" "U1" (some "e1")

/-- Whether an output is an isolator launch dispatch. -/
def Output.isLaunch : Output → Bool
  | .dispatchLaunchExecutor _ _ _ _ => true
  | _ => false

/-- Whether an output is a `KillTaskMessage` send. -/
def Output.isKillTaskMsg : Output → Bool
  | .sendKillTask _ _ _ => true
  | _ => false

/-- Whether an output is a `resourcesChanged` dispatch. -/
def Output.isResourcesChanged : Output → Bool
  | .dispatchResourcesChanged _ _ _ => true
  | _ => false

/-- The executor record claim C6 promises after a successful
`registerExecutor`: sender pid, `RUNNING`, queued tasks accounted into
`launchedTasks` and `resources`, and `queuedTasks` cleared. -/
def registeredExecutorSpec (e : Executor) (sender : String) : Executor :=
  { e with
    pid := sender,
    state := ExecState.RUNNING,
    resources := (e.resources +
      Resources.sum (e.queuedTasks.map (fun t => t.resources))),
    launchedTasks := (e.launchedTasks ++
      e.queuedTasks.map (fun t => createTask t .TASK_STAGING)),
    queuedTasks := [] }

/-- The outputs claim C6 promises after a successful `registerExecutor`,
in order: the libprocess-pid checkpoint (when the framework checkpoints),
the `resourcesChanged` dispatch, the `ExecutorRegistered` reply, and then
one `RunTask` per queued task — so `resourcesChanged` precedes the flush. -/
def registerOutputsSpec (fw : Framework) (e : Executor)
    (sender fwId exId : String) : List Output :=
  (if fw.info.checkpoint
     then [Output.checkpointLibprocessPid fwId exId sender] else []) ++
    [Output.dispatchResourcesChanged fwId exId
       (e.resources +
         Resources.sum (e.queuedTasks.map (fun t => t.resources))),
     Output.sendExecutorRegistered sender] ++
    e.queuedTasks.map (fun t => Output.sendRunTask sender t)

/-- C2 counterexample: with a one-week `gc_delay` and 25% disk usage,
`_checkDiskUsage` calls `gc.prune` with `1/4` week, which is not the
computed age `age(1/4) = 3/4` week — the claim that prune is invoked with
the age itself fails. -/
theorem C2_counterexample :
    Slave.checkDiskUsagePruneArg 1 (1/4) ≠ Slave.age 1 (1/4) := by
  norm_num [Slave.checkDiskUsagePruneArg, Slave.age]

/-- C2 (amended): on every ready disk-usage sample the agent calls
`gc.prune` with `Weeks(gc_delay.weeks() - age(u).weeks())`, which equals
`Weeks(gc_delay_weeks * u)` — the complement of the computed age, not the
age itself. -/
theorem C2_prune_argument (g u : ℚ) :
    Slave.checkDiskUsagePruneArg g u = g * u ∧
    Slave.checkDiskUsagePruneArg g u = g - Slave.age g u := by
  constructor
  · show g - g * (1 - u) = g * u
    ring
  · rfl

/-- C3 counterexample: `reregisterExecutor` for a framework unknown to the
agent does not count-and-drop — it trips
`CHECK(frameworks.contains(frameworkId))` and aborts the process (modelled
as `none`). -/
theorem C3_counterexample :
    Slave.reregisterExecutor s0ex "exec@1" "f1" "e1" [] [] = none := rfl

/-- C3 (amended): for the scheduler→executor and executor→framework message
routing, an unknown framework (or, for `schedulerMessage`, an unknown
executor) increments `stats.invalidFrameworkMessages` and drops the message
with no other state change and nothing sent. The other inbound handlers do
not behave this way: `runTask` creates the framework, `killTask` synthesizes
`TASK_LOST`, `registerExecutor` replies `ShutdownExecutor` without
counting, and `reregisterExecutor` aborts on a `CHECK`. -/
theorem C3_unknown_message_drop (s : SlaveState)
    (slaveId fwId exId data : String) :
    (s.getFramework fwId = none →
      Slave.schedulerMessage s slaveId fwId exId data =
        (s.incInvalidFrameworkMessages, []) ∧
      Slave.executorMessage s slaveId fwId exId data =
        (s.incInvalidFrameworkMessages, [])) ∧
    (∀ fw, s.getFramework fwId = some fw → fw.getExecutor exId = none →
      Slave.schedulerMessage s slaveId fwId exId data =
        (s.incInvalidFrameworkMessages, [])) := by
  constructor
  · intro h
    constructor
    · simp [Slave.schedulerMessage, h]
    · simp [Slave.executorMessage, h]
  · intro fw h1 h2
    simp [Slave.schedulerMessage, h1, h2]

theorem C3_unknown_message_drop_witness :
    s0ex.getFramework "f1" = none ∧
    Slave.schedulerMessage s0ex "a1" "f1" "e1" "d" =
      (s0ex.incInvalidFrameworkMessages, []) :=
  ⟨rfl, ((C3_unknown_message_drop s0ex "a1" "f1" "e1" "d").1 rfl).1⟩

/-- C4 evidence: re-registering executor `e1` with an empty reported task
list while task `t1` is locally still `TASK_STAGING` does resend a
`RunTask`, but the message carries `launched[task->task_id()]` — a
default-constructed `TaskInfo` (empty task id), not the staged task `t1`
the inline comment says it relaunches. -/
theorem C4_relaunch_sends_default_task :
    (∃ st, Slave.reregisterExecutor c4State "exec@1" "f1" "e1" [] [] =
      some (st, [Output.sendExecutorReregistered "exec@1",
                 Output.sendRunTask "exec@1" defaultTaskInfo])) ∧
    defaultTaskInfo.task_id ≠ taskInfo1.task_id := by
  exact ⟨⟨_, rfl⟩, by decide⟩

theorem mem_removeFirst {p : α → Bool} {a : α} :
    ∀ {l : List α}, a ∈ removeFirst p l → a ∈ l
  | [], h => by simp [removeFirst] at h
  | x :: xs, h => by
    simp only [removeFirst] at h
    split at h
    · exact List.mem_cons_of_mem _ h
    · rcases List.mem_cons.mp h with h1 | h2
      · exact h1 ▸ List.mem_cons_self _ _
      · exact List.mem_cons_of_mem _ (mem_removeFirst h2)

theorem foldlInvariant {P : β → Prop} (f : β → α → β)
    (hstep : ∀ b a, P b → P (f b a)) :
    ∀ (l : List α) (b : β), P b → P (l.foldl f b)
  | [], _, h => h
  | x :: xs, b, h => foldlInvariant f hstep xs (f b x) (hstep b x h)

theorem find?_map_invariant {l : List α} {t : α → α} {p : α → Bool}
    (ht : ∀ x, p (t x) = p x) :
    (l.map t).find? p = (l.find? p).map t := by
  induction l with
  | nil => rfl
  | cons x xs ih =>
    by_cases hx : p x
    · rw [List.map_cons, List.find?_cons_of_pos _ ((ht x).trans hx),
        List.find?_cons_of_pos _ hx, Option.map_some']
    · rw [List.map_cons,
        List.find?_cons_of_neg _ (by simpa [hx] using (ht x)),
        List.find?_cons_of_neg _ (by simpa using hx), ih]

theorem find?_map_invariant_id {l : List α} {t : α → α} {p : α → Bool}
    (ht : ∀ x, p (t x) = p x) (hid : ∀ x, p x = true → t x = x) :
    (l.map t).find? p = l.find? p := by
  rw [find?_map_invariant ht]
  cases hf : l.find? p with
  | none => rfl
  | some a => rw [Option.map_some', hid a (List.find?_some hf)]

theorem runningHasPid_of_eq {e e1 : Executor} (hs : e1.state = e.state)
    (hp : e1.pid = e.pid) (h : runningHasPid e) : runningHasPid e1 := by
  intro hr
  rw [hs] at hr
  rw [hp]
  exact h hr

theorem runningHasPid_of_not_running {e : Executor}
    (h : e.state ≠ ExecState.RUNNING) : runningHasPid e :=
  fun hr => absurd hr h

theorem Executor.removeTask_state (e : Executor) (tid : String) :
    (e.removeTask tid).state = e.state := by
  cases h : e.launchedTasks.find? (fun t => t.task_id == tid) <;>
    simp [Executor.removeTask, h]

theorem Executor.removeTask_pid (e : Executor) (tid : String) :
    (e.removeTask tid).pid = e.pid := by
  cases h : e.launchedTasks.find? (fun t => t.task_id == tid) <;>
    simp [Executor.removeTask, h]

theorem Executor.removeTask_id (e : Executor) (tid : String) :
    (e.removeTask tid).id = e.id := by
  cases h : e.launchedTasks.find? (fun t => t.task_id == tid) <;>
    simp [Executor.removeTask, h]

theorem Executor.applyStatusUpdate_state (e : Executor)
    (tid : String) (st : TaskState) (uuid : String) :
    (e.applyStatusUpdate tid st uuid).state = e.state := by
  unfold Executor.applyStatusUpdate
  split
  · rw [Executor.removeTask_state]
    rfl
  · rfl

theorem Executor.applyStatusUpdate_pid (e : Executor)
    (tid : String) (st : TaskState) (uuid : String) :
    (e.applyStatusUpdate tid st uuid).pid = e.pid := by
  unfold Executor.applyStatusUpdate
  split
  · rw [Executor.removeTask_pid]
    rfl
  · rfl

theorem Executor.applyStatusUpdate_id (e : Executor)
    (tid : String) (st : TaskState) (uuid : String) :
    (e.applyStatusUpdate tid st uuid).id = e.id := by
  unfold Executor.applyStatusUpdate
  split
  · rw [Executor.removeTask_id]
    rfl
  · rfl

theorem fwOk_update_exec {fw : Framework} {exId : String} {e1 : Executor}
    (h : fwOk fw) (he : runningHasPid e1) :
    fwOk { fw with executors :=
      (fw.executors.map (fun x => if x.id == exId then e1 else x)) } := by
  intro e hmem
  rcases List.mem_map.mp hmem with ⟨x, hx, hxe⟩
  by_cases hc : (x.id == exId) = true
  · rw [if_pos hc] at hxe
    exact hxe ▸ he
  · rw [if_neg hc] at hxe
    exact hxe ▸ h x hx

theorem stateOk_updateFw {s : SlaveState} {fwId : String}
    {g : Framework → Framework} (h : stateOk s)
    (hg : ∀ fw, fw ∈ s.frameworks → fwOk fw → fwOk (g fw)) :
    stateOk (s.updateFw fwId g) := by
  intro fw hmem
  rcases List.mem_map.mp hmem with ⟨x, hx, hxf⟩
  by_cases hc : (x.id == fwId) = true
  · rw [if_pos hc] at hxf
    exact hxf ▸ hg x hx (h x hx)
  · rw [if_neg hc] at hxf
    exact hxf ▸ h x hx

theorem stateOk_updateExecutor {s : SlaveState} {fwId exId : String}
    {e1 : Executor} (h : stateOk s) (he : runningHasPid e1) :
    stateOk (s.updateExecutor fwId exId e1) :=
  stateOk_updateFw h (fun _ _ hfw => fwOk_update_exec hfw he)

theorem stateOk_replaceFramework {s : SlaveState} {fw : Framework}
    (h : stateOk s) (hf : fwOk fw) : stateOk (s.replaceFramework fw) :=
  stateOk_updateFw h (fun _ _ _ => hf)

theorem fwOk_destroyExecutor {fw : Framework} {exId : String} (h : fwOk fw) :
    fwOk (fw.destroyExecutor exId) := by
  unfold Framework.destroyExecutor
  split
  · intro e hmem
    exact h e (mem_removeFirst hmem)
  · exact h


theorem stateOk_append_fw {s : SlaveState} {fw : Framework}
    (h : stateOk s) (hfw : fwOk fw) :
    stateOk { s with frameworks := s.frameworks ++ [fw] } := by
  intro f hm
  rcases List.mem_append.mp hm with h1 | h2
  · exact h f h1
  · rw [List.mem_singleton.mp h2]
    exact hfw

theorem fwOk_newFramework (id : String) (info : FrameworkInfo)
    (pid : String) : fwOk (newFramework id info pid).1 := by
  intro e he
  exact absurd he (List.not_mem_nil e)

theorem fwOk_append_exec {fw : Framework} {e : Executor}
    (h : fwOk fw) (he : runningHasPid e) :
    fwOk { fw with executors := fw.executors ++ [e] } := by
  intro x hm
  rcases List.mem_append.mp hm with h1 | h2
  · exact h x h1
  · rw [List.mem_singleton.mp h2]
    exact he

theorem forwardUpdate_stateOk {s : SlaveState} {u : StatusUpdate}
    {ex : Option Executor} (h : stateOk s) :
    stateOk (Slave.forwardUpdate s u ex).1 := h

theorem statusUpdate_stateOk {s : SlaveState} {u : StatusUpdate}
    (h : stateOk s) : stateOk (Slave.statusUpdate s u).1 := by
  unfold Slave.statusUpdate
  split
  · exact forwardUpdate_stateOk h
  · split
    · exact forwardUpdate_stateOk h
    · rename_i ofw fw hfw oe e he
      dsimp only
      refine forwardUpdate_stateOk (stateOk_updateExecutor h ?_)
      exact runningHasPid_of_eq (Executor.applyStatusUpdate_state e _ _ _)
        (Executor.applyStatusUpdate_pid e _ _ _)
        (h fw (List.mem_of_find?_eq_some hfw) e (List.mem_of_find?_eq_some he))

theorem cleanupFrameworkSweep_stateOk {s1 : SlaveState} {fwId : String}
    (h : stateOk s1) : stateOk (Slave.cleanupFrameworkSweep s1 fwId) := by
  unfold Slave.cleanupFrameworkSweep
  split
  · exact h
  · split
    · intro fw hm
      exact h fw (mem_removeFirst hm)
    · exact h

theorem cleanup_stateOk {s : SlaveState} {fwId exId : String}
    (h : stateOk s) : stateOk (Slave.cleanup s fwId exId).1 := by
  unfold Slave.cleanup
  split
  · exact h
  · split
    · exact h
    · rename_i ofw fw hfw oe e he
      dsimp only
      split
      · have hs1 : stateOk (s.replaceFramework (fw.destroyExecutor exId)) :=
          stateOk_replaceFramework h
            (fwOk_destroyExecutor (h fw (List.mem_of_find?_eq_some hfw)))
        split
        · exact cleanupFrameworkSweep_stateOk hs1
        · exact cleanupFrameworkSweep_stateOk hs1
      · split
        · exact cleanupFrameworkSweep_stateOk h
        · exact cleanupFrameworkSweep_stateOk h

theorem ackHandler_stateOk {s : SlaveState} {taskId fwId uuid : String}
    (h : stateOk s) :
    stateOk (Slave.statusUpdateAckHandler s taskId fwId uuid).1 := by
  unfold Slave.statusUpdateAckHandler
  split
  · exact h
  · split
    · exact h
    · rename_i ofw fw hfw oe e he
      refine cleanup_stateOk (stateOk_updateExecutor h ?_)
      exact runningHasPid_of_eq rfl rfl
        (h fw (List.mem_of_find?_eq_some hfw) e (List.mem_of_find?_eq_some he))

theorem killTask_stateOk {s : SlaveState} {fwId taskId freshUuid : String}
    (h : stateOk s) : stateOk (Slave.killTask s fwId taskId freshUuid).1 := by
  unfold Slave.killTask
  split
  · exact statusUpdate_stateOk h
  · split
    · exact statusUpdate_stateOk h
    · split
      · exact statusUpdate_stateOk h
      · exact h

theorem foldl_addTask_pid (ts : List TaskInfo) (e : Executor) :
    (ts.foldl (fun acc t => acc.addTask t) e).pid = e.pid := by
  induction ts generalizing e with
  | nil => rfl
  | cons t ts ih => exact (ih (e.addTask t)).trans rfl

theorem foldl_addTask_state (ts : List TaskInfo) (e : Executor) :
    (ts.foldl (fun acc t => acc.addTask t) e).state = e.state := by
  induction ts generalizing e with
  | nil => rfl
  | cons t ts ih => exact (ih (e.addTask t)).trans rfl

theorem registerExecutor_stateOk {s : SlaveState} {sender fwId exId : String}
    (hsender : sender ≠ "") (h : stateOk s) :
    stateOk (Slave.registerExecutor s sender fwId exId).1 := by
  unfold Slave.registerExecutor
  split
  · exact h
  · split
    · exact h
    · rename_i ofw fw hfw oe e he
      split
      · dsimp only
        refine stateOk_updateExecutor h ?_
        intro _ heq
        exact hsender ((foldl_addTask_pid
          ({ e with pid := sender, state := ExecState.RUNNING } :
            Executor).queuedTasks
          { e with pid := sender, state := ExecState.RUNNING }).symm.trans heq)
      · exact h

theorem reregisterExecutor_stateOk {s : SlaveState}
    {sender fwId exId : String} {tasks : List TaskInfo}
    {updates : List StatusUpdate} {r : SlaveState × List Output}
    (hsender : sender ≠ "")
    (hr : Slave.reregisterExecutor s sender fwId exId tasks updates = some r)
    (h : stateOk s) : stateOk r.1 := by
  unfold Slave.reregisterExecutor at hr
  split at hr
  · exact absurd hr (by simp)
  · split at hr
    · exact absurd hr (by simp)
    · rename_i ofw fw hfw oe e he
      injection hr with hr1
      subst hr1
      dsimp only
      refine foldlInvariant
        (P := fun (acc : SlaveState × List Output) => stateOk acc.1) _
        ?_ updates _ ?_
      · intro b a hb
        dsimp only
        split
        · exact hb
        · exact statusUpdate_stateOk hb
      · exact stateOk_updateExecutor h (fun _ => hsender)

theorem termLoopLaunched_stateOk (fwId exId : String) (destroyed : Bool)
    (message : String) (fresh : String → String) :
    ∀ (l : List Task) (acc : SlaveState × List Output × Bool),
      stateOk acc.1 →
      stateOk (Slave.termLoopLaunched fwId exId destroyed message fresh
        acc l).1
  | [], _, h => h
  | task :: rest, acc, h => by
    unfold Slave.termLoopLaunched
    split
    · exact termLoopLaunched_stateOk fwId exId destroyed message fresh rest
        acc h
    · exact termLoopLaunched_stateOk fwId exId destroyed message fresh rest
        _ (statusUpdate_stateOk h)

theorem termLoopQueued_stateOk (fwId exId : String) (destroyed : Bool)
    (message : String) (fresh : String → String) :
    ∀ (l : List TaskInfo) (acc : SlaveState × List Output × Bool),
      stateOk acc.1 →
      stateOk (Slave.termLoopQueued fwId exId destroyed message fresh
        acc l).1
  | [], _, h => h
  | task :: rest, acc, h => by
    unfold Slave.termLoopQueued
    exact termLoopQueued_stateOk fwId exId destroyed message fresh rest
      _ (statusUpdate_stateOk h)

theorem executorTerminated_stateOk {s : SlaveState} {fwId exId : String}
    {status : Int} {destroyed : Bool} {message : String}
    {fresh : String → String} (h : stateOk s) :
    stateOk (Slave.executorTerminated s fwId exId status destroyed message
      fresh).1 := by
  unfold Slave.executorTerminated
  split
  · exact h
  · split
    · exact h
    · rename_i ofw fw hfw oe e he
      dsimp only
      have hs1 : stateOk (s.updateExecutor fwId exId
          { e with state := ExecState.TERMINATED }) :=
        stateOk_updateExecutor h (fun hr => ExecState.noConfusion hr)
      refine cleanup_stateOk ?_
      split
      · exact hs1
      · exact termLoopQueued_stateOk fwId exId destroyed message fresh _ _
          (termLoopLaunched_stateOk fwId exId destroyed message fresh _ _ hs1)

theorem runTaskWithFramework_stateOk {s0 : SlaveState} {fw : Framework}
    {fwId : String} {task : TaskInfo} {newUuid freshUuid : String}
    {newOuts : List Output} (h : stateOk s0) (hfw : fwOk fw) :
    stateOk (Slave.runTaskWithFramework s0 fw fwId task newUuid freshUuid
      newOuts).1 := by
  unfold Slave.runTaskWithFramework
  split
  · exact stateOk_replaceFramework h hfw
  · split
    · exact statusUpdate_stateOk h
    · dsimp only
      cases he : fw.getExecutor (Framework.getExecutorInfo task).executor_id with
      | some e =>
        simp only [he]
        split
        · exact statusUpdate_stateOk h
        · split
          · exact stateOk_updateExecutor h
              (runningHasPid_of_eq rfl rfl
                (hfw e (List.mem_of_find?_eq_some he)))
          · exact stateOk_updateExecutor h
              (runningHasPid_of_eq rfl rfl
                (hfw e (List.mem_of_find?_eq_some he)))
      | none =>
        simp only [he]
        have hs1 : stateOk (s0.replaceFramework
            (fw.createExecutor (Framework.getExecutorInfo task) newUuid).1) := by
          refine stateOk_replaceFramework h ?_
          refine fwOk_append_exec hfw ?_
          exact fun hr => ExecState.noConfusion hr
        split
        · exact statusUpdate_stateOk hs1
        · split
          · exact stateOk_updateExecutor hs1
              (fun hr => ExecState.noConfusion hr)
          · exact stateOk_updateExecutor hs1
              (fun hr => ExecState.noConfusion hr)

theorem runTask_stateOk {s : SlaveState} {fi : FrameworkInfo}
    {fwId pid : String} {task : TaskInfo} {newUuid freshUuid : String}
    (h : stateOk s) :
    stateOk (Slave.runTask s fi fwId pid task newUuid freshUuid).1 := by
  unfold Slave.runTask
  split
  · exact statusUpdate_stateOk h
  · split
    · rename_i ofw fw hfw
      exact runTaskWithFramework_stateOk h
        (h fw (List.mem_of_find?_eq_some hfw))
    · exact runTaskWithFramework_stateOk
        (stateOk_append_fw h (fwOk_newFramework _ _ _))
        (fwOk_newFramework _ _ _)

theorem shutdownFramework_stateOk {s : SlaveState} {sender fwId : String}
    (h : stateOk s) : stateOk (Slave.shutdownFramework s sender fwId).1 := by
  unfold Slave.shutdownFramework
  split
  · exact h
  · split
    · exact h
    · refine stateOk_replaceFramework h ?_
      intro x hm
      rcases List.mem_map.mp hm with ⟨y, hy, hxy⟩
      exact hxy ▸ (fun hr => ExecState.noConfusion hr)

theorem registerExecutorTimeout_stateOk {s : SlaveState}
    {fwId exId uuid : String} (h : stateOk s) :
    stateOk (Slave.registerExecutorTimeout s fwId exId uuid).1 := by
  unfold Slave.registerExecutorTimeout
  split
  · exact h
  · split
    · exact h
    · split
      · exact h
      · split
        · exact stateOk_updateExecutor h (fun hr => ExecState.noConfusion hr)
        · exact h

theorem shutdownExecutorTimeout_stateOk {s : SlaveState}
    {fwId exId uuid : String} (h : stateOk s) :
    stateOk (Slave.shutdownExecutorTimeout s fwId exId uuid).1 := by
  unfold Slave.shutdownExecutorTimeout
  split
  · exact h
  · split
    · exact h
    · split
      · exact h
      · exact h

theorem reregisterExecutorTimeout_stateOk {s : SlaveState} (h : stateOk s) :
    stateOk (Slave.reregisterExecutorTimeout s).1 := h

theorem schedulerMessage_stateOk {s : SlaveState}
    {slaveId fwId exId data : String} (h : stateOk s) :
    stateOk (Slave.schedulerMessage s slaveId fwId exId data).1 := by
  unfold Slave.schedulerMessage
  split
  · exact h
  · split
    · exact h
    · split
      · exact h
      · exact h

theorem executorMessage_stateOk {s : SlaveState}
    {slaveId fwId exId data : String} (h : stateOk s) :
    stateOk (Slave.executorMessage s slaveId fwId exId data).1 := by
  unfold Slave.executorMessage
  split
  · exact h
  · exact h

theorem updateFrameworkPid_stateOk {s : SlaveState} {fwId pid : String}
    (h : stateOk s) : stateOk (Slave.updateFrameworkPid s fwId pid).1 := by
  unfold Slave.updateFrameworkPid
  split
  · exact h
  · rename_i ofw fw hfw
    exact stateOk_replaceFramework h (h fw (List.mem_of_find?_eq_some hfw))

theorem recoverUpdates_state (taskId : String) (acks : List String) :
    ∀ (us : List StatusUpdate) (e : Executor),
      (Executor.recoverUpdates e taskId acks us).state = e.state
  | [], _ => rfl
  | u :: rest, e => by
    unfold Executor.recoverUpdates
    split
    · split <;> simp [Executor.removeTask_state, Executor.updateTaskState]
    · exact (recoverUpdates_state taskId acks rest _).trans
        (by simp [Executor.updateTaskState])

theorem recoverTask_state (e : Executor) (ts : TaskStateRec) :
    (e.recoverTask ts).state = e.state := by
  unfold Executor.recoverTask
  split
  · rfl
  · exact (recoverUpdates_state _ _ _ _).trans rfl

theorem foldl_recoverTask_state (tss : List TaskStateRec) (e : Executor) :
    (tss.foldl (fun acc t => acc.recoverTask t) e).state = e.state := by
  induction tss generalizing e with
  | nil => rfl
  | cons t ts ih => exact (ih (e.recoverTask t)).trans (recoverTask_state e t)

theorem recoverExecutor_fwOk {fw fw1 : Framework} {es : ExecutorStateRec}
    {x : Option Executor}
    (hr : fw.recoverExecutor es = some (fw1, x)) (h : fwOk fw) :
    fwOk fw1 := by
  unfold Framework.recoverExecutor at hr
  split at hr
  · split at hr
    · exact absurd hr (by simp)
    · split at hr
      · exact absurd hr (by simp)
      · injection hr with hr1
        have hfw1 := congrArg Prod.fst hr1
        dsimp only at hfw1
        rw [← hfw1]
        refine fwOk_append_exec h ?_
        intro hrun
        rw [foldl_recoverTask_state] at hrun
        exact ExecState.noConfusion hrun
  · injection hr with hr1
    have hfw1 := congrArg Prod.fst hr1
    dsimp only at hfw1
    rw [← hfw1]
    exact h

theorem recoverExecutorStep_fwOk {fsId : String} {reconnect : Bool}
    {acc : Option (Framework × List Output)} {es : ExecutorStateRec}
    (h : ∀ fw outs, acc = some (fw, outs) → fwOk fw) :
    ∀ fw outs,
      Slave.recoverExecutorStep fsId reconnect acc es = some (fw, outs) →
      fwOk fw := by
  intro fw outs hr
  unfold Slave.recoverExecutorStep at hr
  split at hr
  · exact absurd hr (by simp)
  · rename_i fo
    split at hr
    · exact absurd hr (by simp)
    · rename_i ore fw1 hre
      injection hr with hr1
      have hfw := congrArg Prod.fst hr1
      dsimp only at hfw
      rw [← hfw]
      exact recoverExecutor_fwOk hre (h fo.1 fo.2 rfl)
    · rename_i ore fw1 e hre
      have hfw1 : fwOk fw1 := recoverExecutor_fwOk hre (h fo.1 fo.2 rfl)
      have hfw1m : fwOk { fw1 with executors :=
          (fw1.executors.map (fun x =>
            if x.id == e.id then { x with state := ExecState.TERMINATING }
            else x)) } := by
        intro x hm
        rcases List.mem_map.mp hm with ⟨y, hy, hxy⟩
        by_cases hc : (y.id == e.id) = true
        · rw [if_pos hc] at hxy
          exact hxy ▸ (fun hrun => ExecState.noConfusion hrun)
        · rw [if_neg hc] at hxy
          exact hxy ▸ hfw1 y hy
      dsimp only at hr
      split at hr
      · split at hr
        · injection hr with hr1
          have hfw := congrArg Prod.fst hr1
          dsimp only at hfw
          rw [← hfw]
          exact hfw1
        · injection hr with hr1
          have hfw := congrArg Prod.fst hr1
          dsimp only at hfw
          rw [← hfw]
          exact hfw1
      · split at hr
        · injection hr with hr1
          have hfw := congrArg Prod.fst hr1
          dsimp only at hfw
          rw [← hfw]
          exact hfw1
        · injection hr with hr1
          have hfw := congrArg Prod.fst hr1
          dsimp only at hfw
          rw [← hfw]
          exact hfw1m

theorem recoverFramework_stateOk {s : SlaveState} {fsr : FrameworkStateRec}
    {reconnect : Bool} {r : SlaveState × List Output}
    (hr : Slave.recoverFramework s fsr reconnect = some r)
    (h : stateOk s) : stateOk r.1 := by
  unfold Slave.recoverFramework at hr
  split at hr
  · split at hr
    · exact absurd hr (by simp)
    · dsimp only at hr
      split at hr
      · exact absurd hr (by simp)
      · rename_i ostep fw outs hstep
        injection hr with hr1
        have hfold : ∀ (acc : Option (Framework × List Output)),
            (∀ fw1 outs1, acc = some (fw1, outs1) → fwOk fw1) →
            ∀ (l : List ExecutorStateRec) fw1 outs1,
              l.foldl (Slave.recoverExecutorStep fsr.id reconnect) acc
                = some (fw1, outs1) → fwOk fw1 := by
          intro acc hacc l
          have := foldlInvariant
            (P := fun (a : Option (Framework × List Output)) =>
              ∀ fw1 outs1, a = some (fw1, outs1) → fwOk fw1)
            (Slave.recoverExecutorStep fsr.id reconnect)
            (fun b a hb => recoverExecutorStep_fwOk hb) l acc hacc
          exact this
        rw [← hr1]
        refine stateOk_append_fw h ?_
        refine hfold _ ?_ _ fw outs hstep
        intro fw1 outs1 heq
        injection heq with heq1
        have hfw := congrArg Prod.fst heq1
        dsimp only at hfw
        rw [← hfw]
        exact fwOk_newFramework _ _ _
  · exact absurd hr (by simp)

/-- The pid/state direction the code maintains, over every reachable
state. -/
theorem stateOk_of_reaches {s : SlaveState} (h : Reaches s) : stateOk s := by
  induction h with
  | boot flagsCkpt recoverMode master =>
    intro fw hm
    exact absurd hm (List.not_mem_nil fw)
  | runTask fi fwId pid task newUuid freshUuid hs ih =>
    exact runTask_stateOk ih
  | registerExecutor sender fwId exId hs hsender ih =>
    exact registerExecutor_stateOk hsender ih
  | reregisterExecutor sender fwId exId tasks updates hs hsender hr ih =>
    exact reregisterExecutor_stateOk hsender hr ih
  | statusUpdate u hs ih =>
    exact statusUpdate_stateOk ih
  | statusUpdateAck taskId fwId uuid hs ih =>
    exact ackHandler_stateOk ih
  | killTask fwId taskId freshUuid hs ih =>
    exact killTask_stateOk ih
  | executorTerminated fwId exId status destroyed message fresh hs ih =>
    exact executorTerminated_stateOk ih
  | registerExecutorTimeout fwId exId uuid hs ih =>
    exact registerExecutorTimeout_stateOk ih
  | shutdownExecutorTimeout fwId exId uuid hs ih =>
    exact shutdownExecutorTimeout_stateOk ih
  | reregisterExecutorTimeout hs ih =>
    exact reregisterExecutorTimeout_stateOk ih
  | shutdownFramework sender fwId hs ih =>
    exact shutdownFramework_stateOk ih
  | updateFrameworkPid fwId pid hs ih =>
    exact updateFrameworkPid_stateOk ih
  | schedulerMessage slaveId fwId exId data hs ih =>
    exact schedulerMessage_stateOk ih
  | executorMessage slaveId fwId exId data hs ih =>
    exact executorMessage_stateOk ih
  | recoverFramework fsr reconnect hs hr ih =>
    exact recoverFramework_stateOk hr ih

/-- C1 counterexample: the state reached by `runTask` (creating executor
`e1`, still `REGISTERING` with no pid) followed by
`registerExecutorTimeout` is reachable, and in it the executor is
`TERMINATING` with an empty pid — so `pid.is_some ↔ state ∈
{RUNNING, TERMINATING}` fails on a reachable state. -/
theorem C1_counterexample :
    Reaches s2ex ∧ pidStateConsistent s2ex = false := by
  constructor
  · exact Reaches.registerExecutorTimeout "f1" "e1" "run1"
      (Reaches.runTask fwInfoNC "f1" "sched@1" taskInfo1 "run1" "U0"
        (Reaches.boot false "reconnect" "master@host"))
  · decide

/-- C1 (amended): only the forward direction of the claimed equivalence
holds — in every reachable agent state, every tracked executor in state
`RUNNING` has its pid set (registration and re-registration set both
together). The converse fails: `registerExecutorTimeout` and the shutdown
of an unregistered executor leave a `TERMINATING` executor with an empty
pid, a terminated executor keeps its pid, and recovery restores pids of
`REGISTERING` executors. -/
theorem C1_pid_set_when_running (s : SlaveState) (h : Reaches s) :
    ∀ fw ∈ s.frameworks, ∀ e ∈ fw.executors,
      e.state = ExecState.RUNNING → e.pid ≠ "" := by
  intro fw hfw e he
  exact stateOk_of_reaches h fw hfw e he

theorem C1_pid_set_when_running_witness :
    Reaches s3ex ∧
      (∀ fw ∈ s3ex.frameworks, ∀ e ∈ fw.executors,
        e.state = ExecState.RUNNING → e.pid ≠ "") := by
  have tr : Reaches s3ex :=
    Reaches.registerExecutor "exec@1" "f1" "e1"
      (Reaches.runTask fwInfoNC "f1" "sched@1" taskInfo1 "run1" "U0"
        (Reaches.boot false "reconnect" "master@host"))
      (by decide)
  exact ⟨tr, C1_pid_set_when_running s3ex tr⟩


theorem Resources.add_mk (a b c d : ℚ) :
    (⟨a, b⟩ : Resources) + ⟨c, d⟩ = ⟨a + c, b + d⟩ := rfl

theorem Resources.sub_mk (a b c d : ℚ) :
    (⟨a, b⟩ : Resources) - ⟨c, d⟩ = ⟨a - c, b - d⟩ := rfl

theorem Resources.zero_mk : (0 : Resources) = ⟨0, 0⟩ := rfl

theorem Resources.add_zero (a : Resources) : a + 0 = a := by
  cases a
  rw [Resources.zero_mk, Resources.add_mk]
  simp

theorem Resources.zero_add (a : Resources) : 0 + a = a := by
  cases a
  rw [Resources.zero_mk, Resources.add_mk]
  simp

theorem Resources.add_assoc (a b c : Resources) :
    a + b + c = a + (b + c) := by
  cases a; cases b; cases c
  simp only [Resources.add_mk, Resources.mk.injEq]
  constructor <;> ring

theorem Resources.add_sub_assoc (a b c : Resources) :
    a + b - c = a + (b - c) := by
  cases a; cases b; cases c
  simp only [Resources.add_mk, Resources.sub_mk, Resources.mk.injEq]
  constructor <;> ring

theorem Resources.add_sub_cancel_left (a b : Resources) :
    a + b - a = b := by
  cases a; cases b
  simp only [Resources.add_mk, Resources.sub_mk, Resources.mk.injEq]
  constructor <;> ring

theorem Resources.foldl_add_shift (l : List Resources) (a : Resources) :
    l.foldl (fun x y => x + y) a = a + l.foldl (fun x y => x + y) 0 := by
  induction l generalizing a with
  | nil => exact (Resources.add_zero a).symm
  | cons x xs ih =>
    show xs.foldl _ (a + x) = a + xs.foldl _ (0 + x)
    rw [ih (a + x), ih (0 + x), Resources.zero_add,
      Resources.add_assoc]

theorem Resources.sum_cons (x : Resources) (l : List Resources) :
    Resources.sum (x :: l) = x + Resources.sum l := by
  show l.foldl _ (0 + x) = x + Resources.sum l
  rw [Resources.foldl_add_shift, Resources.zero_add]
  rfl

theorem Resources.sum_append_single (l : List Resources) (x : Resources) :
    Resources.sum (l ++ [x]) = Resources.sum l + x := by
  unfold Resources.sum
  rw [List.foldl_append]
  rfl

theorem Resources.sum_map_removeFirst {l : List Task} {p : Task → Bool}
    {t : Task} (h : l.find? p = some t) :
    Resources.sum ((removeFirst p l).map (fun x => x.resources)) =
      Resources.sum (l.map (fun x => x.resources)) - t.resources := by
  induction l with
  | nil => simp at h
  | cons x xs ih =>
    by_cases hx : p x
    · rw [List.find?_cons_of_pos _ hx] at h
      injection h with h1
      subst h1
      show Resources.sum ((if p x then xs else _).map _) = _
      rw [if_pos hx, List.map_cons, Resources.sum_cons,
        Resources.add_sub_cancel_left]
    · rw [List.find?_cons_of_neg _ hx] at h
      show Resources.sum ((if p x then xs else
        x :: removeFirst p xs).map _) = _
      rw [if_neg hx, List.map_cons, Resources.sum_cons, ih h,
        List.map_cons, Resources.sum_cons, Resources.add_sub_assoc]

/-- C7: resources accounting (P1 / I5). A freshly created executor, and the
`addTask` / `removeTask` mutations, keep `resources` equal to the
executor's own declared `info.resources` plus the resources of its
launched tasks. -/
theorem C7_resources_accounting :
    (∀ (fw : Framework) (einfo : ExecutorInfo) (uuid : String),
      resourcesConsistent (fw.createExecutor einfo uuid).2.1) ∧
    (∀ (e : Executor) (t : TaskInfo),
      resourcesConsistent e → resourcesConsistent (e.addTask t)) ∧
    (∀ (e : Executor) (taskId : String),
      resourcesConsistent e → resourcesConsistent (e.removeTask taskId)) := by
  refine ⟨?_, ?_, ?_⟩
  · intro fw einfo uuid
    show einfo.resources = einfo.resources + Resources.sum []
    rw [show Resources.sum [] = 0 from rfl, Resources.add_zero]
  · intro e t h
    show e.resources + t.resources =
      e.info.resources + Resources.sum
        ((e.launchedTasks ++ [createTask t .TASK_STAGING]).map
          (fun x => x.resources))
    rw [List.map_append, List.map_singleton]
    show _ = e.info.resources + Resources.sum
      (e.launchedTasks.map (fun x => x.resources) ++ [t.resources])
    rw [Resources.sum_append_single, ← Resources.add_assoc, ← h]
  · intro e taskId h
    unfold Executor.removeTask
    cases hf : e.launchedTasks.find? (fun t => t.task_id == taskId) with
    | none =>
      simp only [hf]
      exact h
    | some task =>
      simp only [hf]
      show e.resources - task.resources =
        e.info.resources + Resources.sum
          ((removeFirst (fun t => t.task_id == taskId)
            e.launchedTasks).map (fun x => x.resources))
      rw [Resources.sum_map_removeFirst hf, h, Resources.add_sub_assoc]

theorem C7_resources_accounting_witness :
    resourcesConsistent c5wExec ∧
    resourcesConsistent (c5wExec.addTask cmdTaskInfo) :=
  ⟨by rfl, C7_resources_accounting.2.1 c5wExec cmdTaskInfo (by rfl)⟩


theorem foldl_addTask_spec (ts : List TaskInfo) (e : Executor) :
    ts.foldl (fun acc t => acc.addTask t) e =
      { e with
        launchedTasks := (e.launchedTasks ++
          ts.map (fun t => createTask t .TASK_STAGING)),
        resources := e.resources +
          Resources.sum (ts.map (fun t => t.resources)) } := by
  induction ts generalizing e with
  | nil =>
    cases e
    simp [show Resources.sum [] = 0 from rfl, Resources.add_zero]
  | cons t ts ih =>
    show ts.foldl (fun acc t => acc.addTask t) (e.addTask t) = _
    rw [ih (e.addTask t)]
    cases e
    simp only [Executor.addTask, List.map_cons, Resources.sum_cons,
      List.append_assoc, List.singleton_append, Executor.mk.injEq,
      Resources.add_assoc]


/-- C6: `registerExecutor` behaviour. Unknown framework, unknown executor
or a non-`REGISTERING` state reply `ShutdownExecutor` with no state
change; otherwise the executor gets `pid := sender` and state `RUNNING`,
the libprocess pid is checkpointed when the framework checkpoints, every
queued task is accounted through `addTask` (resources grow by their sum),
`resourcesChanged` is dispatched before `ExecutorRegistered` and before
the queued tasks are flushed as `RunTask` messages, and `queuedTasks` is
cleared. -/
theorem C6_register_executor (s : SlaveState) (sender fwId exId : String) :
    (s.getFramework fwId = none →
      Slave.registerExecutor s sender fwId exId =
        (s, [Output.sendShutdownExecutor sender])) ∧
    (∀ fw, s.getFramework fwId = some fw →
      fw.getExecutor exId = none →
      Slave.registerExecutor s sender fwId exId =
        (s, [Output.sendShutdownExecutor sender])) ∧
    (∀ fw e, s.getFramework fwId = some fw →
      fw.getExecutor exId = some e → e.state ≠ ExecState.REGISTERING →
      Slave.registerExecutor s sender fwId exId =
        (s, [Output.sendShutdownExecutor sender])) ∧
    (∀ fw e, s.getFramework fwId = some fw →
      fw.getExecutor exId = some e → e.state = ExecState.REGISTERING →
      Slave.registerExecutor s sender fwId exId =
        ({ (s.updateExecutor fwId exId (registeredExecutorSpec e sender)) with
            stats := (e.queuedTasks.foldl
              (fun st _ => st.bumpTask .TASK_STAGING) s.stats) },
         registerOutputsSpec fw e sender fwId exId)) := by
  refine ⟨?_, ?_, ?_, ?_⟩
  · intro h
    simp [Slave.registerExecutor, h]
  · intro fw h1 h2
    simp [Slave.registerExecutor, h1, h2]
  · intro fw e h1 h2 h3
    have hb : (e.state == ExecState.REGISTERING) = false := by
      simp [h3]
    simp [Slave.registerExecutor, h1, h2, hb]
  · intro fw e h1 h2 h3
    have hb : (e.state == ExecState.REGISTERING) = true := by
      simp [h3]
    simp only [Slave.registerExecutor, h1, h2, hb, if_true]
    rw [foldl_addTask_spec]
    rfl

theorem C6_register_executor_witness :
    c6State.getFramework "f1" = some c6Fw ∧
    c6Fw.getExecutor "e1" = some c6Exec ∧
    c6Exec.state = ExecState.REGISTERING ∧
    Slave.registerExecutor c6State "exec@1" "f1" "e1" =
      ({ (c6State.updateExecutor "f1" "e1"
            (registeredExecutorSpec c6Exec "exec@1")) with
          stats := (c6Exec.queuedTasks.foldl
            (fun st _ => st.bumpTask .TASK_STAGING) c6State.stats) },
       registerOutputsSpec c6Fw c6Exec "exec@1" "f1" "e1") :=
  ⟨rfl, rfl, rfl,
    (C6_register_executor c6State "exec@1" "f1" "e1").2.2.2 c6Fw c6Exec
      rfl rfl rfl⟩


theorem forwardUpdate_outs (s : SlaveState) (u : StatusUpdate)
    (ex : Option Executor) :
    ∃ ck pid, (Slave.forwardUpdate s u ex).2 =
      [Output.forwardUpdate u ck pid] :=
  ⟨_, _, rfl⟩

theorem statusUpdate_outs_shape (s : SlaveState) (u : StatusUpdate) :
    ∃ ck pid,
      (Slave.statusUpdate s u).2 = [Output.forwardUpdate u ck pid] ∨
      ∃ fwId exId res, (Slave.statusUpdate s u).2 =
        [Output.dispatchResourcesChanged fwId exId res,
         Output.forwardUpdate u ck pid] := by
  unfold Slave.statusUpdate
  split
  · obtain ⟨ck, pid, h⟩ := forwardUpdate_outs s.incInvalidStatusUpdates u none
    exact ⟨ck, pid, Or.inl h⟩
  · split
    · obtain ⟨ck, pid, h⟩ :=
        forwardUpdate_outs s.incInvalidStatusUpdates u none
      exact ⟨ck, pid, Or.inl h⟩
    · rename_i ofw fw hfw oe e he
      dsimp only
      obtain ⟨ck, pid, h⟩ := forwardUpdate_outs
        (s.updateExecutor fw.id e.id
          (e.applyStatusUpdate u.task_id u.state u.uuid)) u
        (some (e.applyStatusUpdate u.task_id u.state u.uuid))
      rw [h]
      split
      · exact ⟨ck, pid, Or.inr ⟨fw.id, e.id, _, rfl⟩⟩
      · exact ⟨ck, pid, Or.inl rfl⟩

theorem statusUpdate_filter_forward (s : SlaveState) (u : StatusUpdate) :
    ∃ ck pid, (Slave.statusUpdate s u).2.filter Output.isForward =
      [Output.forwardUpdate u ck pid] := by
  obtain ⟨ck, pid, h | ⟨fwId, exId, res, h⟩⟩ := statusUpdate_outs_shape s u
  · exact ⟨ck, pid, by rw [h]; rfl⟩
  · exact ⟨ck, pid, by rw [h]; rfl⟩

theorem statusUpdate_filter_launch (s : SlaveState) (u : StatusUpdate) :
    (Slave.statusUpdate s u).2.filter Output.isLaunch = [] := by
  obtain ⟨ck, pid, h | ⟨fwId, exId, res, h⟩⟩ := statusUpdate_outs_shape s u
  · rw [h]; rfl
  · rw [h]; rfl

theorem statusUpdate_filter_killmsg (s : SlaveState) (u : StatusUpdate) :
    (Slave.statusUpdate s u).2.filter Output.isKillTaskMsg = [] := by
  obtain ⟨ck, pid, h | ⟨fwId, exId, res, h⟩⟩ := statusUpdate_outs_shape s u
  · rw [h]; rfl
  · rw [h]; rfl

theorem mapCongrFun {f g : α → β} :
    ∀ (l : List α), (∀ x ∈ l, f x = g x) → l.map f = l.map g
  | [], _ => rfl
  | x :: xs, h => by
    rw [List.map_cons, List.map_cons, h x (List.mem_cons_self x xs),
      mapCongrFun xs (fun y hy => h y (List.mem_cons_of_mem x hy))]

theorem statusUpdate_skeleton (s : SlaveState) (u : StatusUpdate) :
    frameworksSkeleton (Slave.statusUpdate s u).1 = frameworksSkeleton s := by
  unfold Slave.statusUpdate
  split
  · rfl
  · split
    · rfl
    · rename_i ofw fw hfw oe e he
      dsimp only
      show frameworksSkeleton
        (s.updateExecutor fw.id e.id
          (e.applyStatusUpdate u.task_id u.state u.uuid)) =
        frameworksSkeleton s
      unfold frameworksSkeleton SlaveState.updateExecutor SlaveState.updateFw
      dsimp only
      rw [List.map_map]
      refine mapCongrFun s.frameworks ?_
      intro f hf
      by_cases hc : (f.id == fw.id) = true
      · simp only [Function.comp, hc, if_pos]
        refine congrArg (fun l => (f.id, l)) ?_
        rw [List.map_map]
        refine mapCongrFun f.executors ?_
        intro x hx
        by_cases hc2 : (x.id == e.id) = true
        · simp only [Function.comp, hc2, if_pos]
          rw [Executor.applyStatusUpdate_id]
          exact (eq_of_beq hc2).symm
        · simp only [Function.comp, hc2]
          rw [if_neg (by simp [hc2])]
      · simp only [Function.comp, hc]
        rw [if_neg (by simp [hc])]

/-- C9: a `runTask` whose framework wants checkpointing while the agent
has it disabled synthesizes exactly one status update — a `TASK_LOST`
whose message is the checkpointing-disabled text — and returns without
creating any framework or executor and without dispatching an executor
launch. -/
theorem C9_checkpoint_mismatch (s : SlaveState) (fi : FrameworkInfo)
    (fwId pid : String) (task : TaskInfo) (newUuid freshUuid : String)
    (hc : fi.checkpoint = true) (hf : s.flags_checkpoint = false) :
    (∃ ck pidOpt,
      (Slave.runTask s fi fwId pid task newUuid freshUuid).2.filter
          Output.isForward =
        [Output.forwardUpdate
          (createStatusUpdate fwId task.task_id .TASK_LOST
            checkpointDisabledMessage freshUuid none) ck pidOpt]) ∧
    (Slave.runTask s fi fwId pid task newUuid freshUuid).2.filter
        Output.isLaunch = [] ∧
    frameworksSkeleton (Slave.runTask s fi fwId pid task newUuid
      freshUuid).1 = frameworksSkeleton s := by
  have hcond : (fi.checkpoint && !s.flags_checkpoint) = true := by
    rw [hc, hf]
    rfl
  have hrun : Slave.runTask s fi fwId pid task newUuid freshUuid =
      Slave.statusUpdate s
        (createStatusUpdate fwId task.task_id .TASK_LOST
          checkpointDisabledMessage freshUuid none) := by
    unfold Slave.runTask
    rw [if_pos hcond]
  rw [hrun]
  exact ⟨statusUpdate_filter_forward s _, statusUpdate_filter_launch s _,
    statusUpdate_skeleton s _⟩

theorem C9_checkpoint_mismatch_witness :
    FrameworkInfo.checkpoint ⟨true⟩ = true ∧
    s0ex.flags_checkpoint = false ∧
    ((∃ ck pidOpt,
      (Slave.runTask s0ex ⟨true⟩ "f1" "sched@1" taskInfo1 "run1"
        "U7").2.filter Output.isForward =
        [Output.forwardUpdate
          (createStatusUpdate "f1" "t1" .TASK_LOST
            checkpointDisabledMessage "U7" none) ck pidOpt]) ∧
    (Slave.runTask s0ex ⟨true⟩ "f1" "sched@1" taskInfo1 "run1"
      "U7").2.filter Output.isLaunch = [] ∧
    frameworksSkeleton (Slave.runTask s0ex ⟨true⟩ "f1" "sched@1" taskInfo1
      "run1" "U7").1 = frameworksSkeleton s0ex) :=
  ⟨rfl, rfl,
    C9_checkpoint_mismatch s0ex ⟨true⟩ "f1" "sched@1" taskInfo1 "run1" "U7"
      rfl rfl⟩


/-- C10: `killTask` behaviour. An unknown framework or an unowned task
synthesizes a terminal `TASK_LOST` through `statusUpdate` and sends no
`KillTaskMessage`; an owning executor still `REGISTERING` synthesizes a
terminal `TASK_KILLED` ("Unregistered executor") without contacting the
executor; only an executor past `REGISTERING` gets a `KillTaskMessage` at
its pid (and then no status update is synthesized). -/
theorem C10_kill_task (s : SlaveState) (fwId taskId freshUuid : String) :
    (s.getFramework fwId = none →
      (∃ ck pid, (Slave.killTask s fwId taskId freshUuid).2.filter
          Output.isForward =
        [Output.forwardUpdate
          (createStatusUpdate fwId taskId .TASK_LOST "Cannot find framework"
            freshUuid none) ck pid]) ∧
      (Slave.killTask s fwId taskId freshUuid).2.filter
        Output.isKillTaskMsg = []) ∧
    (∀ fw, s.getFramework fwId = some fw →
      fw.getExecutorByTask taskId = none →
      (∃ ck pid, (Slave.killTask s fwId taskId freshUuid).2.filter
          Output.isForward =
        [Output.forwardUpdate
          (createStatusUpdate fwId taskId .TASK_LOST "Cannot find executor"
            freshUuid none) ck pid]) ∧
      (Slave.killTask s fwId taskId freshUuid).2.filter
        Output.isKillTaskMsg = []) ∧
    (∀ fw e, s.getFramework fwId = some fw →
      fw.getExecutorByTask taskId = some e →
      e.state = ExecState.REGISTERING →
      (∃ ck pid, (Slave.killTask s fwId taskId freshUuid).2.filter
          Output.isForward =
        [Output.forwardUpdate
          (createStatusUpdate fwId taskId .TASK_KILLED
            "Unregistered executor" freshUuid (some e.id)) ck pid]) ∧
      (Slave.killTask s fwId taskId freshUuid).2.filter
        Output.isKillTaskMsg = []) ∧
    (∀ fw e, s.getFramework fwId = some fw →
      fw.getExecutorByTask taskId = some e →
      e.state ≠ ExecState.REGISTERING →
      Slave.killTask s fwId taskId freshUuid =
        (s, [Output.sendKillTask e.pid fwId taskId])) := by
  have hterm : TaskState.isTerminal .TASK_LOST = true := rfl
  refine ⟨?_, ?_, ?_, ?_⟩
  · intro h
    have hk : Slave.killTask s fwId taskId freshUuid =
        Slave.statusUpdate s (createStatusUpdate fwId taskId .TASK_LOST
          "Cannot find framework" freshUuid none) := by
      unfold Slave.killTask
      rw [h]
    rw [hk]
    exact ⟨statusUpdate_filter_forward s _, statusUpdate_filter_killmsg s _⟩
  · intro fw h1 h2
    have hk : Slave.killTask s fwId taskId freshUuid =
        Slave.statusUpdate s (createStatusUpdate fwId taskId .TASK_LOST
          "Cannot find executor" freshUuid none) := by
      unfold Slave.killTask
      rw [h1]
      dsimp only
      rw [h2]
    rw [hk]
    exact ⟨statusUpdate_filter_forward s _, statusUpdate_filter_killmsg s _⟩
  · intro fw e h1 h2 h3
    have hk : Slave.killTask s fwId taskId freshUuid =
        Slave.statusUpdate s (createStatusUpdate fwId taskId .TASK_KILLED
          "Unregistered executor" freshUuid (some e.id)) := by
      unfold Slave.killTask
      rw [h1]
      dsimp only
      rw [h2]
      dsimp only
      rw [if_pos (by simp [h3])]
    rw [hk]
    exact ⟨statusUpdate_filter_forward s _, statusUpdate_filter_killmsg s _⟩
  · intro fw e h1 h2 h3
    unfold Slave.killTask
    rw [h1]
    dsimp only
    rw [h2]
    dsimp only
    rw [if_neg (by simp [h3])]

theorem C10_kill_task_witness :
    c6State.getFramework "f1" = some c6Fw ∧
    c6Fw.getExecutorByTask "t1" = some c6Exec ∧
    c6Exec.state = ExecState.REGISTERING ∧
    ((∃ ck pid, (Slave.killTask c6State "f1" "t1" "U2").2.filter
        Output.isForward =
      [Output.forwardUpdate
        (createStatusUpdate "f1" "t1" .TASK_KILLED "Unregistered executor"
          "U2" (some c6Exec.id)) ck pid]) ∧
    (Slave.killTask c6State "f1" "t1" "U2").2.filter
      Output.isKillTaskMsg = []) :=
  ⟨rfl, rfl, rfl,
    (C10_kill_task c6State "f1" "t1" "U2").2.2.1 c6Fw c6Exec rfl rfl rfl⟩


theorem getFramework_updateFw_self {s : SlaveState} {fwId : String}
    {g : Framework → Framework} {fw : Framework}
    (h : s.getFramework fwId = some fw) (hg : ∀ f, (g f).id = f.id) :
    (s.updateFw fwId g).getFramework fwId = some (g fw) := by
  unfold SlaveState.getFramework at h
  unfold SlaveState.getFramework SlaveState.updateFw
  dsimp only
  rw [find?_map_invariant (t := fun f => if f.id == fwId then g f else f)
    (p := fun f => f.id == fwId) ?ht]
  case ht =>
    intro x
    dsimp only
    by_cases hc : (x.id == fwId) = true
    · rw [if_pos hc, hg x]
    · rw [if_neg hc]
  rw [h, Option.map_some', if_pos (List.find?_some h)]

theorem find?_update_exec {l : List Executor} {p : Executor → Bool}
    {e e1 : Executor} (h : l.find? p = some e) (hid : e1.id = e.id)
    (hp1 : p e1 = true) :
    (l.map (fun x => if x.id == e.id then e1 else x)).find? p = some e1 := by
  induction l with
  | nil => simp at h
  | cons x xs ih =>
    by_cases hx : p x = true
    · rw [List.find?_cons_of_pos _ hx] at h
      injection h with h1
      subst h1
      rw [List.map_cons, if_pos (beq_self_eq_true _),
        List.find?_cons_of_pos _ hp1]
    · rw [List.find?_cons_of_neg _ hx] at h
      rw [List.map_cons]
      by_cases hc : (x.id == e.id) = true
      · rw [if_pos hc, List.find?_cons_of_pos _ hp1]
      · rw [if_neg hc, List.find?_cons_of_neg _ hx, ih h]

theorem find?_removeFirst_key_none {l : List Task} {tid : String}
    (hnd : (l.map (fun t => t.task_id)).Nodup) :
    (removeFirst (fun t => t.task_id == tid) l).find?
      (fun t => t.task_id == tid) = none := by
  induction l with
  | nil => rfl
  | cons x xs ih =>
    rw [List.map_cons, List.nodup_cons] at hnd
    by_cases hx : (x.task_id == tid) = true
    · show (if (x.task_id == tid) = true then xs else _).find? _ = none
      rw [if_pos hx, List.find?_eq_none]
      intro t ht hbt
      exact hnd.1 (by
        rw [show x.task_id = tid from eq_of_beq hx,
          ← show t.task_id = tid from eq_of_beq hbt]
        exact List.mem_map_of_mem _ ht)
    · show (if (x.task_id == tid) = true then xs
          else x :: removeFirst _ xs).find? _ = none
      rw [if_neg hx]
      have hstep : List.find? (fun t => t.task_id == tid)
          (x :: removeFirst (fun t => t.task_id == tid) xs) =
          List.find? (fun t => t.task_id == tid)
            (removeFirst (fun t => t.task_id == tid) xs) :=
        List.find?_cons_of_neg _ hx
      rw [hstep, ih hnd.2]

theorem updateTaskState_keys (e : Executor) (tid : String) (st : TaskState) :
    (e.updateTaskState tid st).launchedTasks.map (fun t => t.task_id) =
      e.launchedTasks.map (fun t => t.task_id) := by
  show (e.launchedTasks.map _).map _ = _
  rw [List.map_map]
  refine mapCongrFun _ ?_
  intro t _
  by_cases hc : (t.task_id == tid) = true
  · simp [Function.comp, hc]
  · simp [Function.comp, hc]

theorem Executor.removeTask_updates (e : Executor) (tid : String) :
    (e.removeTask tid).updates = e.updates := by
  cases h : e.launchedTasks.find? (fun t => t.task_id == tid) <;>
    simp [Executor.removeTask, h]

theorem Executor.applyStatusUpdate_updates (e : Executor) (tid : String)
    (st : TaskState) (uuid : String) :
    (e.applyStatusUpdate tid st uuid).updates = e.updates ++ [(tid, uuid)] := by
  unfold Executor.applyStatusUpdate
  split
  · rw [Executor.removeTask_updates]
    rfl
  · rfl

theorem removeTask_find_none {e : Executor} {tid : String}
    (hnd : (e.launchedTasks.map (fun t => t.task_id)).Nodup) :
    (e.removeTask tid).launchedTasks.find?
      (fun t => t.task_id == tid) = none := by
  unfold Executor.removeTask
  cases hf : e.launchedTasks.find? (fun t => t.task_id == tid) with
  | none =>
    simp only [hf]
  | some t =>
    simp only [hf]
    exact find?_removeFirst_key_none hnd

theorem applyStatusUpdate_find_none {e : Executor} {tid uuid : String}
    {st : TaskState} (hterm : st.isTerminal = true)
    (hnd : (e.launchedTasks.map (fun t => t.task_id)).Nodup) :
    (e.applyStatusUpdate tid st uuid).launchedTasks.find?
      (fun t => t.task_id == tid) = none := by
  unfold Executor.applyStatusUpdate
  rw [if_pos hterm]
  refine removeTask_find_none ?_
  show ((e.updateTaskState tid st).launchedTasks.map (fun t => t.task_id)).Nodup
  rw [updateTaskState_keys]
  exact hnd

theorem removeFirst_pair_append {l : List (String × String)}
    {a : String × String} (h : a ∉ l) :
    removeFirst (fun x => x == a) (l ++ [a]) = l := by
  induction l with
  | nil =>
    show (if (a == a) = true then ([] : List (String × String)) else _) = []
    rw [if_pos (beq_self_eq_true a)]
  | cons x xs ih =>
    have hxa : x ≠ a := fun he => h (he ▸ List.mem_cons_self x xs)
    have hfalse : (x == a) = false := beq_eq_false_iff_ne.mpr hxa
    show (if (x == a) = true then _ else
      x :: removeFirst (fun y => y == a) (xs ++ [a])) = x :: xs
    rw [if_neg (by rw [hfalse]; exact Bool.false_ne_true),
      ih (fun hm => h (List.mem_cons_of_mem x hm))]


theorem isEmpty_false_of_find?_some {l : List α} {p : α → Bool} {a : α}
    (h : l.find? p = some a) : l.isEmpty = false := by
  cases l with
  | nil => simp at h
  | cons x xs => rfl

theorem C8_statusUpdate_lookup (s : SlaveState) (u : StatusUpdate)
    (fw : Framework) (ex : Executor)
    (hfw : s.getFramework u.framework_id = some fw)
    (hex : fw.getExecutorByTask u.task_id = some ex) :
    (Slave.statusUpdate s u).1.getFramework u.framework_id =
      some { fw with executors :=
        (fw.executors.map (fun x => if x.id == ex.id
          then ex.applyStatusUpdate u.task_id u.state u.uuid else x)) } := by
  have hfw2 : s.frameworks.find? (fun f => f.id == u.framework_id) =
      some fw := hfw
  have hbeq := List.find?_some hfw2
  have hid : fw.id = u.framework_id := eq_of_beq hbeq
  simp only [Slave.statusUpdate, hfw, hex]
  show (SlaveState.updateExecutor s fw.id ex.id
      (ex.applyStatusUpdate u.task_id u.state u.uuid)).getFramework
      u.framework_id = _
  unfold SlaveState.updateExecutor
  rw [← hid]
  exact getFramework_updateFw_self (by rw [hid]; exact hfw) (fun f => rfl)

/-- C8: a terminal status update for a task of a known framework and
executor removes the task from `launchedTasks` while recording
`(task_id, uuid)` in `updates`; the entry stays until the coordinator
acknowledgement handler for that uuid removes it. -/
theorem C8_terminal_removal (s : SlaveState) (u : StatusUpdate)
    (fw : Framework) (ex : Executor)
    (hfw : s.getFramework u.framework_id = some fw)
    (hex : fw.getExecutorByTask u.task_id = some ex)
    (hexid : fw.getExecutor ex.id = some ex)
    (hterm : u.state.isTerminal = true)
    (hnotin : (u.task_id, u.uuid) ∉ ex.updates)
    (hnodup : (ex.launchedTasks.map (fun t => t.task_id)).Nodup)
    (hstate : ex.state ≠ ExecState.TERMINATED) :
    ∃ fw1 ex1,
      (Slave.statusUpdate s u).1.getFramework u.framework_id = some fw1 ∧
      fw1.getExecutorByTask u.task_id = some ex1 ∧
      ex1.launchedTasks.find? (fun t => t.task_id == u.task_id) = none ∧
      (u.task_id, u.uuid) ∈ ex1.updates ∧
      (∃ fw2 ex2,
        (Slave.statusUpdateAckHandler (Slave.statusUpdate s u).1 u.task_id
            u.framework_id u.uuid).1.getFramework u.framework_id =
          some fw2 ∧
        fw2.getExecutor ex.id = some ex2 ∧
        (u.task_id, u.uuid) ∉ ex2.updates) := by
  have hfw2 : s.frameworks.find? (fun f => f.id == u.framework_id) =
      some fw := hfw
  have hbeq := List.find?_some hfw2
  have hid : fw.id = u.framework_id := eq_of_beq hbeq
  have hsu1 := C8_statusUpdate_lookup s u fw ex hfw hex
  have hcont1 : (ex.applyStatusUpdate u.task_id u.state u.uuid).containsTask
      u.task_id = true := by
    unfold Executor.containsTask
    rw [Executor.applyStatusUpdate_updates]
    simp
  have hbt1 : Framework.getExecutorByTask
      { fw with executors :=
        (fw.executors.map (fun x => if x.id == ex.id
          then ex.applyStatusUpdate u.task_id u.state u.uuid else x)) }
      u.task_id = some (ex.applyStatusUpdate u.task_id u.state u.uuid) :=
    find?_update_exec hex (Executor.applyStatusUpdate_id ex _ _ _) hcont1
  have hfind : (ex.applyStatusUpdate u.task_id u.state
      u.uuid).launchedTasks.find? (fun t => t.task_id == u.task_id) =
      none := applyStatusUpdate_find_none hterm hnodup
  have hmem : (u.task_id, u.uuid) ∈
      (ex.applyStatusUpdate u.task_id u.state u.uuid).updates := by
    rw [Executor.applyStatusUpdate_updates]
    exact List.mem_append_right _ (List.mem_singleton_self _)
  have hexid1 : Framework.getExecutor
      { fw with executors :=
        (fw.executors.map (fun x => if x.id == ex.id
          then ex.applyStatusUpdate u.task_id u.state u.uuid else x)) }
      ex.id = some (ex.applyStatusUpdate u.task_id u.state u.uuid) := by
    refine find?_update_exec hexid (Executor.applyStatusUpdate_id ex _ _ _) ?_
    show ((ex.applyStatusUpdate u.task_id u.state u.uuid).id == ex.id) = true
    rw [Executor.applyStatusUpdate_id]
    exact beq_self_eq_true _
  refine ⟨_, _, hsu1, hbt1, hfind, hmem, ?_⟩
  -- the acknowledgement stage
  have hack : Slave.statusUpdateAckHandler (Slave.statusUpdate s u).1
      u.task_id u.framework_id u.uuid =
      Slave.cleanup
        ((Slave.statusUpdate s u).1.updateExecutor
          (Framework.id { fw with executors :=
            (fw.executors.map (fun x => if x.id == ex.id
              then ex.applyStatusUpdate u.task_id u.state u.uuid else x)) })
          (Executor.id (ex.applyStatusUpdate u.task_id u.state u.uuid))
          { (ex.applyStatusUpdate u.task_id u.state u.uuid) with
            updates := (removeFirst
              (fun p => p == (u.task_id, u.uuid))
              (ex.applyStatusUpdate u.task_id u.state u.uuid).updates) })
        u.framework_id
        (Executor.id (ex.applyStatusUpdate u.task_id u.state u.uuid)) := by
    simp only [Slave.statusUpdateAckHandler, hsu1, hbt1]
  have hupd2 : ({ (ex.applyStatusUpdate u.task_id u.state u.uuid) with
      updates := (removeFirst (fun p => p == (u.task_id, u.uuid))
        (ex.applyStatusUpdate u.task_id u.state u.uuid).updates) } :
      Executor).updates = ex.updates := by
    show removeFirst (fun p => p == (u.task_id, u.uuid))
      (ex.applyStatusUpdate u.task_id u.state u.uuid).updates = ex.updates
    rw [Executor.applyStatusUpdate_updates]
    exact removeFirst_pair_append hnotin
  have hsu2 : ((Slave.statusUpdate s u).1.updateExecutor
      (Framework.id { fw with executors :=
        (fw.executors.map (fun (x : Executor) => if x.id == ex.id
          then ex.applyStatusUpdate u.task_id u.state u.uuid else x)) })
      (Executor.id (ex.applyStatusUpdate u.task_id u.state u.uuid))
      { (ex.applyStatusUpdate u.task_id u.state u.uuid) with
        updates := (removeFirst (fun p => p == (u.task_id, u.uuid))
          (ex.applyStatusUpdate u.task_id u.state
            u.uuid).updates) }).getFramework u.framework_id = some
      { { fw with executors :=
          (fw.executors.map (fun (x : Executor) => if x.id == ex.id
            then ex.applyStatusUpdate u.task_id u.state u.uuid else x)) }
        with executors :=
        (({ fw with executors :=
            (fw.executors.map (fun (x : Executor) => if x.id == ex.id
              then ex.applyStatusUpdate u.task_id u.state u.uuid
              else x)) } : Framework).executors.map
          (fun (x : Executor) => if x.id ==
              (Executor.id (ex.applyStatusUpdate u.task_id u.state u.uuid))
            then { (ex.applyStatusUpdate u.task_id u.state u.uuid) with
              updates := (removeFirst (fun p => p == (u.task_id, u.uuid))
                (ex.applyStatusUpdate u.task_id u.state u.uuid).updates) }
            else x)) } := by
    unfold SlaveState.updateExecutor
    rw [← hid]
    exact getFramework_updateFw_self (by nth_rewrite 1 [hid]; exact hsu1)
      (fun f => rfl)
  have hexid1a : Framework.getExecutor
      { fw with executors :=
        (fw.executors.map (fun (x : Executor) => if x.id == ex.id
          then ex.applyStatusUpdate u.task_id u.state u.uuid else x)) }
      (Executor.id (ex.applyStatusUpdate u.task_id u.state u.uuid)) =
      some (ex.applyStatusUpdate u.task_id u.state u.uuid) := by
    rw [Executor.applyStatusUpdate_id]
    exact hexid1
  have hexid2 : Framework.getExecutor
      { { fw with executors :=
          (fw.executors.map (fun (x : Executor) => if x.id == ex.id
            then ex.applyStatusUpdate u.task_id u.state u.uuid else x)) }
        with executors :=
        (({ fw with executors :=
            (fw.executors.map (fun (x : Executor) => if x.id == ex.id
              then ex.applyStatusUpdate u.task_id u.state u.uuid
              else x)) } : Framework).executors.map
          (fun (x : Executor) => if x.id ==
              (Executor.id (ex.applyStatusUpdate u.task_id u.state u.uuid))
            then { (ex.applyStatusUpdate u.task_id u.state u.uuid) with
              updates := (removeFirst (fun p => p == (u.task_id, u.uuid))
                (ex.applyStatusUpdate u.task_id u.state u.uuid).updates) }
            else x)) }
      (Executor.id (ex.applyStatusUpdate u.task_id u.state u.uuid)) =
      some { (ex.applyStatusUpdate u.task_id u.state u.uuid) with
        updates := (removeFirst (fun p => p == (u.task_id, u.uuid))
          (ex.applyStatusUpdate u.task_id u.state u.uuid).updates) } := by
    refine find?_update_exec hexid1a rfl ?_
    exact beq_self_eq_true _
  have hst2 : (({ (ex.applyStatusUpdate u.task_id u.state u.uuid) with
      updates := (removeFirst (fun p => p == (u.task_id, u.uuid))
        (ex.applyStatusUpdate u.task_id u.state u.uuid).updates) } :
      Executor).state == ExecState.TERMINATED) = false := by
    rw [show ({ (ex.applyStatusUpdate u.task_id u.state u.uuid) with
        updates := (removeFirst (fun p => p == (u.task_id, u.uuid))
          (ex.applyStatusUpdate u.task_id u.state u.uuid).updates) } :
        Executor).state = ex.state
      from Executor.applyStatusUpdate_state ex u.task_id u.state u.uuid]
    exact beq_eq_false_iff_ne.mpr hstate
  have hne1 : (({ { fw with executors :=
          (fw.executors.map (fun (x : Executor) => if x.id == ex.id
            then ex.applyStatusUpdate u.task_id u.state u.uuid else x)) }
        with executors :=
        (({ fw with executors :=
            (fw.executors.map (fun (x : Executor) => if x.id == ex.id
              then ex.applyStatusUpdate u.task_id u.state u.uuid
              else x)) } : Framework).executors.map
          (fun (x : Executor) => if x.id ==
              (Executor.id (ex.applyStatusUpdate u.task_id u.state u.uuid))
            then { (ex.applyStatusUpdate u.task_id u.state u.uuid) with
              updates := (removeFirst (fun p => p == (u.task_id, u.uuid))
                (ex.applyStatusUpdate u.task_id u.state u.uuid).updates) }
            else x)) } : Framework).executors).isEmpty = false :=
    isEmpty_false_of_find?_some hexid2
  have hne2 : (((Slave.statusUpdate s u).1.updateExecutor
      (Framework.id { fw with executors :=
        (fw.executors.map (fun (x : Executor) => if x.id == ex.id
          then ex.applyStatusUpdate u.task_id u.state u.uuid else x)) })
      (Executor.id (ex.applyStatusUpdate u.task_id u.state u.uuid))
      { (ex.applyStatusUpdate u.task_id u.state u.uuid) with
        updates := (removeFirst (fun p => p == (u.task_id, u.uuid))
          (ex.applyStatusUpdate u.task_id u.state
            u.uuid).updates) }).frameworks).isEmpty = false :=
    isEmpty_false_of_find?_some hsu2
  have hclean : Slave.cleanup
      ((Slave.statusUpdate s u).1.updateExecutor
        (Framework.id { fw with executors :=
          (fw.executors.map (fun (x : Executor) => if x.id == ex.id
            then ex.applyStatusUpdate u.task_id u.state u.uuid else x)) })
        (Executor.id (ex.applyStatusUpdate u.task_id u.state u.uuid))
        { (ex.applyStatusUpdate u.task_id u.state u.uuid) with
          updates := (removeFirst (fun p => p == (u.task_id, u.uuid))
            (ex.applyStatusUpdate u.task_id u.state u.uuid).updates) })
      u.framework_id
      (Executor.id (ex.applyStatusUpdate u.task_id u.state u.uuid)) =
      ((Slave.statusUpdate s u).1.updateExecutor
        (Framework.id { fw with executors :=
          (fw.executors.map (fun (x : Executor) => if x.id == ex.id
            then ex.applyStatusUpdate u.task_id u.state u.uuid else x)) })
        (Executor.id (ex.applyStatusUpdate u.task_id u.state u.uuid))
        { (ex.applyStatusUpdate u.task_id u.state u.uuid) with
          updates := (removeFirst (fun p => p == (u.task_id, u.uuid))
            (ex.applyStatusUpdate u.task_id u.state u.uuid).updates) },
       []) := by
    simp only [Slave.cleanup, Slave.cleanupFrameworkSweep, hsu2, hexid2,
      hst2, hne1, hne2, Bool.false_and, Bool.and_false, Bool.false_eq_true,
      if_false]
  refine ⟨{ { fw with executors :=
      (fw.executors.map (fun (x : Executor) => if x.id == ex.id
        then ex.applyStatusUpdate u.task_id u.state u.uuid else x)) }
    with executors :=
    (({ fw with executors :=
        (fw.executors.map (fun (x : Executor) => if x.id == ex.id
          then ex.applyStatusUpdate u.task_id u.state u.uuid
          else x)) } : Framework).executors.map
      (fun (x : Executor) => if x.id ==
          (Executor.id (ex.applyStatusUpdate u.task_id u.state u.uuid))
        then { (ex.applyStatusUpdate u.task_id u.state u.uuid) with
          updates := (removeFirst (fun p => p == (u.task_id, u.uuid))
            (ex.applyStatusUpdate u.task_id u.state u.uuid).updates) }
        else x)) },
    { (ex.applyStatusUpdate u.task_id u.state u.uuid) with
      updates := (removeFirst (fun p => p == (u.task_id, u.uuid))
        (ex.applyStatusUpdate u.task_id u.state u.uuid).updates) },
    ?_, ?_, ?_⟩
  · rw [hack, hclean]
    exact hsu2
  · refine find?_update_exec hexid1 rfl ?_
    show (({ (ex.applyStatusUpdate u.task_id u.state u.uuid) with
      updates := (removeFirst (fun p => p == (u.task_id, u.uuid))
        (ex.applyStatusUpdate u.task_id u.state u.uuid).updates) } :
      Executor).id == ex.id) = true
    rw [show ({ (ex.applyStatusUpdate u.task_id u.state u.uuid) with
        updates := (removeFirst (fun p => p == (u.task_id, u.uuid))
          (ex.applyStatusUpdate u.task_id u.state u.uuid).updates) } :
        Executor).id = ex.id
      from Executor.applyStatusUpdate_id ex u.task_id u.state u.uuid]
    exact beq_self_eq_true _
  · rw [hupd2]
    exact hnotin

/-- C8 witness: the finished task `t1` of `c8State` is removed from
`launchedTasks`, recorded in `updates`, and the acknowledgement for
uuid `U1` erases the record. -/
theorem C8_terminal_removal_witness :
    ∃ fw1 ex1,
      (Slave.statusUpdate c8State c8Update).1.getFramework
        c8Update.framework_id = some fw1 ∧
      fw1.getExecutorByTask c8Update.task_id = some ex1 ∧
      ex1.launchedTasks.find? (fun t => t.task_id == c8Update.task_id) =
        none ∧
      (c8Update.task_id, c8Update.uuid) ∈ ex1.updates ∧
      (∃ fw2 ex2,
        (Slave.statusUpdateAckHandler (Slave.statusUpdate c8State c8Update).1
            c8Update.task_id c8Update.framework_id
            c8Update.uuid).1.getFramework c8Update.framework_id =
          some fw2 ∧
        fw2.getExecutor c8Exec.id = some ex2 ∧
        (c8Update.task_id, c8Update.uuid) ∉ ex2.updates) :=
  C8_terminal_removal c8State c8Update c8Fw c8Exec rfl rfl rfl rfl
    (by decide) (by decide) (by decide)


theorem statusUpdate_forward_mem (s : SlaveState) (u : StatusUpdate) :
    ∃ ck pid, Output.forwardUpdate u ck pid ∈ (Slave.statusUpdate s u).2 := by
  obtain ⟨ck, pid, h | ⟨fwId, exId, res, h⟩⟩ := statusUpdate_outs_shape s u
  · exact ⟨ck, pid, by rw [h]; exact List.mem_singleton_self _⟩
  · exact ⟨ck, pid,
      by rw [h]; exact List.mem_cons_of_mem _ (List.mem_singleton_self _)⟩

theorem statusUpdate_no_exited (s : SlaveState) (u : StatusUpdate)
    (a b c : String) (d : Int) :
    Output.sendExitedExecutor a b c d ∉ (Slave.statusUpdate s u).2 := by
  obtain ⟨ck, pid, h | ⟨fwId, exId, res, h⟩⟩ := statusUpdate_outs_shape s u <;>
    rw [h] <;> simp

theorem cleanup_no_exited (s : SlaveState) (fwId exId a b c : String)
    (d : Int) :
    Output.sendExitedExecutor a b c d ∉ (Slave.cleanup s fwId exId).2 := by
  unfold Slave.cleanup
  split
  · simp
  · split
    · simp
    · dsimp only
      split
      · split <;> simp
      · split <;> simp

theorem removeFirst_of_all_false {l : List α} {p : α → Bool}
    (h : ∀ x ∈ l, p x = false) : removeFirst p l = l := by
  induction l with
  | nil => rfl
  | cons x xs ih =>
    unfold removeFirst
    rw [h x (List.mem_cons_self x xs), if_neg Bool.false_ne_true,
      ih (fun y hy => h y (List.mem_cons_of_mem x hy))]

theorem Executor.applyStatusUpdate_queued (e : Executor) (tid : String)
    (st : TaskState) (uuid : String)
    (hq : ∀ q ∈ e.queuedTasks, (q.task_id == tid) = false) :
    (e.applyStatusUpdate tid st uuid).queuedTasks = e.queuedTasks := by
  unfold Executor.applyStatusUpdate Executor.removeTask
    Executor.updateTaskState
  dsimp only
  split
  · split
    · exact removeFirst_of_all_false hq
    · exact removeFirst_of_all_false hq
  · rfl

theorem statusUpdate_preserves_exec {s : SlaveState} (u : StatusUpdate)
    {fwId exId : String} {fw1 : Framework} {e1 : Executor}
    (hfw : s.getFramework fwId = some fw1)
    (hids : (fw1.executors.map (fun e => e.id)).Nodup)
    (hex : fw1.getExecutor exId = some e1)
    (hq : ∀ q ∈ e1.queuedTasks, (q.task_id == u.task_id) = false) :
    ∃ fw2 e2, (Slave.statusUpdate s u).1.getFramework fwId = some fw2 ∧
      ((fw2.executors.map (fun e => e.id)).Nodup) ∧
      fw2.getExecutor exId = some e2 ∧
      e2.queuedTasks = e1.queuedTasks := by
  unfold Slave.statusUpdate
  split
  · exact ⟨fw1, e1, hfw, hids, hex, rfl⟩
  · split
    · exact ⟨fw1, e1, hfw, hids, hex, rfl⟩
    · rename_i ofw fwu hfwu oe eu heu
      dsimp only
      have hhx : ∀ x : Executor,
          ((if x.id == eu.id
            then eu.applyStatusUpdate u.task_id u.state u.uuid
            else x) : Executor).id = x.id := by
        intro x
        split
        · rename_i hc
          rw [Executor.applyStatusUpdate_id]
          exact (eq_of_beq hc).symm
        · rfl
      have hgf : (s.updateExecutor fwu.id eu.id
          (eu.applyStatusUpdate u.task_id u.state u.uuid)).getFramework
            fwId =
          (s.getFramework fwId).map (fun f =>
            if f.id == fwu.id then
              { f with executors := (f.executors.map (fun x =>
                  if x.id == eu.id
                  then eu.applyStatusUpdate u.task_id u.state u.uuid
                  else x)) }
            else f) := by
        unfold SlaveState.updateExecutor SlaveState.updateFw
          SlaveState.getFramework
        dsimp only
        refine find?_map_invariant ?_
        intro f
        split <;> rfl
      rw [hfw] at hgf
      simp only [Option.map_some'] at hgf
      suffices h : ∃ fw2 e2, (s.updateExecutor fwu.id eu.id
            (eu.applyStatusUpdate u.task_id u.state
              u.uuid)).getFramework fwId = some fw2 ∧
          ((fw2.executors.map (fun e => e.id)).Nodup) ∧
          fw2.getExecutor exId = some e2 ∧
          e2.queuedTasks = e1.queuedTasks from h
      by_cases hcfw : (fw1.id == fwu.id) = true
      · rw [if_pos hcfw] at hgf
        have hfe : fwu = fw1 := by
          have hfwa : s.frameworks.find? (fun f => f.id == fwId) =
              some fw1 := hfw
          have hfwb : s.frameworks.find?
              (fun f => f.id == u.framework_id) = some fwu := hfwu
          have hb1 := List.find?_some hfwa
          have hb2 := List.find?_some hfwb
          have hk1 : fw1.id = fwId := eq_of_beq hb1
          have hk2 : fwu.id = u.framework_id := eq_of_beq hb2
          have hpe : (fun f : Framework => f.id == u.framework_id) =
              (fun f : Framework => f.id == fwId) := by
            funext f
            rw [← hk2, ← eq_of_beq hcfw, hk1]
          have hfind1 : s.frameworks.find?
              (fun f => f.id == u.framework_id) = some fwu := hfwu
          rw [hpe] at hfind1
          have hfind2 : s.frameworks.find? (fun f => f.id == fwId) =
              some fw1 := hfw
          rw [hfind1] at hfind2
          injection hfind2 with h2
        have heumem : eu ∈ fw1.executors := by
          rw [hfe] at heu
          exact List.mem_of_find?_eq_some heu
        have hidseq : ((fw1.executors.map (fun x =>
            if x.id == eu.id
            then eu.applyStatusUpdate u.task_id u.state u.uuid
            else x)).map (fun e => e.id)) =
            fw1.executors.map (fun e => e.id) := by
          rw [List.map_map]
          exact mapCongrFun _ (fun x hx => hhx x)
        have hge : ({ fw1 with executors := (fw1.executors.map (fun x =>
            if x.id == eu.id
            then eu.applyStatusUpdate u.task_id u.state u.uuid
            else x)) } : Framework).getExecutor exId =
            some (if e1.id == eu.id
              then eu.applyStatusUpdate u.task_id u.state u.uuid
              else e1) := by
          show (fw1.executors.map (fun x =>
            if x.id == eu.id
            then eu.applyStatusUpdate u.task_id u.state u.uuid
            else x)).find? (fun e => e.id == exId) =
            some (if e1.id == eu.id
              then eu.applyStatusUpdate u.task_id u.state u.uuid
              else e1)
          have hexa : fw1.executors.find? (fun e => e.id == exId) =
              some e1 := hex
          rw [find?_map_invariant (fun x => by rw [hhx x]), hexa,
            Option.map_some']
        by_cases hce : (e1.id == eu.id) = true
        · have he1eu : e1 = eu := by
            have hm1 : e1 ∈ fw1.executors := List.mem_of_find?_eq_some hex
            exact List.inj_on_of_nodup_map hids hm1 heumem (eq_of_beq hce)
        
          refine ⟨_, eu.applyStatusUpdate u.task_id u.state u.uuid, hgf,
            ?_, ?_, ?_⟩
          · rw [hidseq]
            exact hids
          · rw [hge, if_pos hce]
          · rw [← he1eu]
            exact Executor.applyStatusUpdate_queued e1 u.task_id u.state
              u.uuid hq
        · refine ⟨_, e1, hgf, ?_, ?_, ?_⟩
          · rw [hidseq]
            exact hids
          · rw [hge, if_neg hce]
          · rfl
      · rw [if_neg hcfw] at hgf
        exact ⟨fw1, e1, hgf, hids, hex, rfl⟩

theorem termLoopLaunched_outs_mono (fwId exId : String) (destroyed : Bool)
    (message : String) (fresh : String → String) :
    ∀ (l : List Task) (acc : SlaveState × List Output × Bool) (o : Output),
      o ∈ acc.2.1 →
      o ∈ (Slave.termLoopLaunched fwId exId destroyed message fresh
        acc l).2.1
  | [], _, _, h => h
  | task :: rest, acc, o, h => by
    unfold Slave.termLoopLaunched
    split
    · exact termLoopLaunched_outs_mono fwId exId destroyed message fresh
        rest acc o h
    · exact termLoopLaunched_outs_mono fwId exId destroyed message fresh
        rest _ o (List.mem_append_left _ h)

theorem termLoopQueued_outs_mono (fwId exId : String) (destroyed : Bool)
    (message : String) (fresh : String → String) :
    ∀ (l : List TaskInfo) (acc : SlaveState × List Output × Bool)
      (o : Output), o ∈ acc.2.1 →
      o ∈ (Slave.termLoopQueued fwId exId destroyed message fresh acc l).2.1
  | [], _, _, h => h
  | task :: rest, acc, o, h => by
    unfold Slave.termLoopQueued
    exact termLoopQueued_outs_mono fwId exId destroyed message fresh
      rest _ o (List.mem_append_left _ h)

theorem termLoopLaunched_forward_mem (fwId exId : String) (destroyed : Bool)
    (message : String) (fresh : String → String) :
    ∀ (l : List Task) (acc : SlaveState × List Output × Bool) (t : Task),
      t ∈ l → t.state.isTerminal = false →
      ∃ ck pid, Output.forwardUpdate
        (createStatusUpdate fwId t.task_id
          (if destroyed || !t.has_executor_id then .TASK_FAILED
            else .TASK_LOST) message (fresh t.task_id) (some exId)) ck pid ∈
        (Slave.termLoopLaunched fwId exId destroyed message fresh
          acc l).2.1
  | [], _, _, ht, _ => absurd ht (List.not_mem_nil _)
  | task :: rest, acc, t, ht, hlive => by
    unfold Slave.termLoopLaunched
    rcases List.mem_cons.mp ht with h1 | h1
    · subst h1
      rw [if_neg (by rw [hlive]; exact Bool.false_ne_true)]
      dsimp only
      obtain ⟨ck, pid, hm⟩ := statusUpdate_forward_mem acc.1
        (createStatusUpdate fwId t.task_id
          (if destroyed || !t.has_executor_id then .TASK_FAILED
            else .TASK_LOST) message (fresh t.task_id) (some exId))
      exact ⟨ck, pid, termLoopLaunched_outs_mono fwId exId destroyed
        message fresh rest _ _ (List.mem_append_right _ hm)⟩
    · split
      · exact termLoopLaunched_forward_mem fwId exId destroyed message
          fresh rest acc t h1 hlive
      · exact termLoopLaunched_forward_mem fwId exId destroyed message
          fresh rest _ t h1 hlive

theorem termLoopQueued_forward_mem (fwId exId : String) (destroyed : Bool)
    (message : String) (fresh : String → String) :
    ∀ (l : List TaskInfo) (acc : SlaveState × List Output × Bool)
      (t : TaskInfo), t ∈ l →
      ∃ ck pid, Output.forwardUpdate
        (createStatusUpdate fwId t.task_id
          (if destroyed || t.command.isSome then .TASK_FAILED
            else .TASK_LOST) message (fresh t.task_id) (some exId)) ck pid ∈
        (Slave.termLoopQueued fwId exId destroyed message fresh acc l).2.1
  | [], _, _, ht => absurd ht (List.not_mem_nil _)
  | task :: rest, acc, t, ht => by
    unfold Slave.termLoopQueued
    rcases List.mem_cons.mp ht with h1 | h1
    · subst h1
      dsimp only
      obtain ⟨ck, pid, hm⟩ := statusUpdate_forward_mem acc.1
        (createStatusUpdate fwId t.task_id
          (if destroyed || t.command.isSome then .TASK_FAILED
            else .TASK_LOST) message (fresh t.task_id) (some exId))
      exact ⟨ck, pid, termLoopQueued_outs_mono fwId exId destroyed
        message fresh rest _ _ (List.mem_append_right _ hm)⟩
    · exact termLoopQueued_forward_mem fwId exId destroyed message fresh
        rest _ t h1

theorem termLoopLaunched_flag (fwId exId : String) (destroyed : Bool)
    (message : String) (fresh : String → String) :
    ∀ (l : List Task) (acc : SlaveState × List Output × Bool),
      (Slave.termLoopLaunched fwId exId destroyed message fresh
        acc l).2.2 =
      ((l.filter (fun t => !t.state.isTerminal)).map
        (fun t => !t.has_executor_id)).foldl (fun _ b => b) acc.2.2
  | [], _ => rfl
  | task :: rest, acc => by
    unfold Slave.termLoopLaunched
    by_cases hc : task.state.isTerminal = true
    · rw [if_pos hc,
        termLoopLaunched_flag fwId exId destroyed message fresh rest acc]
      simp [List.filter_cons, hc]
    · have hc2 : task.state.isTerminal = false := Bool.eq_false_iff.mpr hc
      rw [if_neg hc]
      dsimp only
      rw [termLoopLaunched_flag fwId exId destroyed message fresh rest _]
      simp [List.filter_cons, hc2]

theorem termLoopQueued_flag (fwId exId : String) (destroyed : Bool)
    (message : String) (fresh : String → String) :
    ∀ (l : List TaskInfo) (acc : SlaveState × List Output × Bool),
      (Slave.termLoopQueued fwId exId destroyed message fresh acc l).2.2 =
      (l.map (fun t => t.command.isSome)).foldl (fun _ b => b) acc.2.2
  | [], _ => rfl
  | task :: rest, acc => by
    unfold Slave.termLoopQueued
    dsimp only
    rw [termLoopQueued_flag fwId exId destroyed message fresh rest _]
    simp

theorem termLoopLaunched_no_exited (fwId exId : String) (destroyed : Bool)
    (message : String) (fresh : String → String) (a b c : String)
    (d : Int) :
    ∀ (l : List Task) (acc : SlaveState × List Output × Bool),
      Output.sendExitedExecutor a b c d ∉ acc.2.1 →
      Output.sendExitedExecutor a b c d ∉
        (Slave.termLoopLaunched fwId exId destroyed message fresh
          acc l).2.1
  | [], _, h => h
  | task :: rest, acc, h => by
    unfold Slave.termLoopLaunched
    split
    · exact termLoopLaunched_no_exited fwId exId destroyed message fresh
        a b c d rest acc h
    · refine termLoopLaunched_no_exited fwId exId destroyed message fresh
        a b c d rest _ ?_
      intro hm
      rcases List.mem_append.mp hm with h1 | h1
      · exact h h1
      · exact statusUpdate_no_exited _ _ a b c d h1

theorem termLoopQueued_no_exited (fwId exId : String) (destroyed : Bool)
    (message : String) (fresh : String → String) (a b c : String)
    (d : Int) :
    ∀ (l : List TaskInfo) (acc : SlaveState × List Output × Bool),
      Output.sendExitedExecutor a b c d ∉ acc.2.1 →
      Output.sendExitedExecutor a b c d ∉
        (Slave.termLoopQueued fwId exId destroyed message fresh acc l).2.1
  | [], _, h => h
  | task :: rest, acc, h => by
    unfold Slave.termLoopQueued
    refine termLoopQueued_no_exited fwId exId destroyed message fresh
      a b c d rest _ ?_
    intro hm
    rcases List.mem_append.mp hm with h1 | h1
    · exact h h1
    · exact statusUpdate_no_exited _ _ a b c d h1

theorem termLoopLaunched_preserves_exec (fwId exId : String)
    (destroyed : Bool) (message : String) (fresh : String → String)
    (Q : List TaskInfo) :
    ∀ (l : List Task) (acc : SlaveState × List Output × Bool),
      (∀ t ∈ l, ∀ q ∈ Q, (q.task_id == t.task_id) = false) →
      (∃ fw1 e1, acc.1.getFramework fwId = some fw1 ∧
        ((fw1.executors.map (fun e => e.id)).Nodup) ∧
        fw1.getExecutor exId = some e1 ∧ e1.queuedTasks = Q) →
      ∃ fw2 e2, (Slave.termLoopLaunched fwId exId destroyed message fresh
          acc l).1.getFramework fwId = some fw2 ∧
        ((fw2.executors.map (fun e => e.id)).Nodup) ∧
        fw2.getExecutor exId = some e2 ∧ e2.queuedTasks = Q
  | [], _, _, h => h
  | task :: rest, acc, hQ, h => by
    unfold Slave.termLoopLaunched
    have hQr : ∀ t ∈ rest, ∀ q ∈ Q, (q.task_id == t.task_id) = false :=
      fun t htm => hQ t (List.mem_cons_of_mem task htm)
    split
    · exact termLoopLaunched_preserves_exec fwId exId destroyed message
        fresh Q rest acc hQr h
    · refine termLoopLaunched_preserves_exec fwId exId destroyed message
        fresh Q rest _ hQr ?_
      obtain ⟨fw1, e1, h1, h2, h3, h4⟩ := h
      obtain ⟨fw2, e2, g1, g2, g3, g4⟩ := statusUpdate_preserves_exec
        (createStatusUpdate fwId task.task_id
          (if destroyed || !task.has_executor_id then .TASK_FAILED
            else .TASK_LOST) message (fresh task.task_id) (some exId))
        h1 h2 h3
        (fun q hqm => by
          rw [h4] at hqm
          exact hQ task (List.mem_cons_self task rest) q hqm)
      exact ⟨fw2, e2, g1, g2, g3, g4.trans h4⟩

theorem nodup_ids_of_map_id_preserving {l : List Executor}
    {h : Executor → Executor} (hh : ∀ x, (h x).id = x.id)
    (hn : (l.map (fun e => e.id)).Nodup) :
    ((l.map h).map (fun e => e.id)).Nodup := by
  rw [List.map_map]
  have heq : l.map ((fun (e : Executor) => e.id) ∘ h) =
      l.map (fun e => e.id) := mapCongrFun _ (fun x hx => hh x)
  rw [heq]
  exact hn

/-- C5 (amended): on `executor_terminated` for a known framework (not
`TERMINATING`) and executor with distinct executor ids and queued tasks
disjoint from launched tasks, every non-terminal launched task and every
queued task is fed into `statusUpdate` (`TASK_FAILED` when destroyed or a
command task, `TASK_LOST` otherwise) and hence forwarded to the status
update manager; but the `ExitedExecutor` message is sent iff the final
`isCommandExecutor` flag — the command-ness of the *last* live task
processed, `false` when there is none — is false, not iff the executor is
not a command executor. -/
theorem C5_termination_updates (s : SlaveState) (fwId exId : String)
    (status : Int) (destroyed : Bool) (msg : String)
    (fresh : String → String) (fw : Framework) (ex : Executor)
    (hfw : s.getFramework fwId = some fw)
    (hex : fw.getExecutor exId = some ex)
    (hids : (fw.executors.map (fun e => e.id)).Nodup)
    (hdisj : ∀ t ∈ ex.launchedTasks, ∀ q ∈ ex.queuedTasks,
      (q.task_id == t.task_id) = false)
    (hfws : fw.state ≠ FwState.TERMINATING) :
    (∀ u ∈ claimedTerminationUpdates fwId ex destroyed msg fresh,
      ∃ ck pid, Output.forwardUpdate u ck pid ∈
        (Slave.executorTerminated s fwId exId status destroyed msg
          fresh).2) ∧
    (Output.sendExitedExecutor s.master fwId exId status ∈
        (Slave.executorTerminated s fwId exId status destroyed msg
          fresh).2 ↔
      lastCmdFlag ex = false) := by
  have hexa : fw.executors.find? (fun e => e.id == exId) = some ex := hex
  have hbex := List.find?_some hexa
  have hexe : ex.id = exId := eq_of_beq hbex
  have hfwa : s.frameworks.find? (fun f => f.id == fwId) = some fw := hfw
  have hbfw := List.find?_some hfwa
  have hkfw : fw.id = fwId := eq_of_beq hbfw
  have hfwsb : (fw.state == FwState.TERMINATING) = false :=
    beq_eq_false_iff_ne.mpr hfws
  -- the executor stored by the initial updateExecutor
  have hhx0 : ∀ x : Executor,
      ((if x.id == exId
        then { ex with state := ExecState.TERMINATED }
        else x) : Executor).id = x.id := by
    intro x
    split
    · rename_i hc
      show ex.id = x.id
      rw [hexe]
      exact (eq_of_beq hc).symm
    · rfl
  have hgf0 : (s.updateExecutor fwId exId
      { ex with state := ExecState.TERMINATED }).getFramework fwId =
      (s.getFramework fwId).map (fun f =>
        if f.id == fwId then
          { f with executors := (f.executors.map (fun x =>
              if x.id == exId
              then { ex with state := ExecState.TERMINATED }
              else x)) }
        else f) := by
    unfold SlaveState.updateExecutor SlaveState.updateFw
      SlaveState.getFramework
    dsimp only
    refine find?_map_invariant ?_
    intro f
    split <;> rfl
  rw [hfw] at hgf0
  simp only [Option.map_some'] at hgf0
  rw [if_pos (by rw [hkfw]; exact beq_self_eq_true _)] at hgf0
  have hinv0 : ∃ fw1 e1,
      (s.updateExecutor fwId exId
        { ex with state := ExecState.TERMINATED }).getFramework fwId =
        some fw1 ∧
      ((fw1.executors.map (fun e => e.id)).Nodup) ∧
      fw1.getExecutor exId = some e1 ∧
      e1.queuedTasks = ex.queuedTasks := by
    refine ⟨_, { ex with state := ExecState.TERMINATED }, hgf0, ?_, ?_, rfl⟩
    · exact nodup_ids_of_map_id_preserving hhx0 hids
    · show (fw.executors.map (fun x =>
        if x.id == exId
        then { ex with state := ExecState.TERMINATED }
        else x)).find? (fun e => e.id == exId) =
        some { ex with state := ExecState.TERMINATED }
      rw [find?_map_invariant (fun x => by rw [hhx0 x]), hexa,
        Option.map_some',
        if_pos (by rw [hexe]; exact beq_self_eq_true _)]
  obtain ⟨fw2, e2, hf2, hn2, he2, hq2⟩ :=
    termLoopLaunched_preserves_exec fwId exId destroyed msg fresh
      ex.queuedTasks ex.launchedTasks
      (s.updateExecutor fwId exId
        { ex with state := ExecState.TERMINATED }, [], false)
      hdisj hinv0
  have hqn : execIn (Slave.termLoopLaunched fwId exId destroyed msg fresh
      (s.updateExecutor fwId exId
        { ex with state := ExecState.TERMINATED }, [], false)
      ex.launchedTasks).1 fwId exId = some e2 := by
    unfold execIn
    rw [hf2]
    exact he2
  unfold Slave.executorTerminated
  simp only [hfw, hex]
  rw [hfwsb, if_neg Bool.false_ne_true]
  simp only [hqn]
  rw [hq2]
  constructor
  · intro u hu
    simp only [claimedTerminationUpdates] at hu
    rw [hexe] at hu
    rcases List.mem_append.mp hu with hA | hB
    · obtain ⟨t, htf, hteq⟩ := List.mem_map.mp hA
      obtain ⟨htm, htl⟩ := List.mem_filter.mp htf
      have hlive : t.state.isTerminal = false := by simpa using htl
      obtain ⟨ck, pid, hm⟩ := termLoopLaunched_forward_mem fwId exId
        destroyed msg fresh ex.launchedTasks
        (s.updateExecutor fwId exId
          { ex with state := ExecState.TERMINATED }, [], false) t htm hlive
      have hm2 := termLoopQueued_outs_mono fwId exId destroyed msg fresh
        ex.queuedTasks _ _ hm
      subst hteq
      exact ⟨ck, pid, List.mem_append.mpr (Or.inl (List.mem_append.mpr
        (Or.inl (List.mem_append.mpr (Or.inr hm2)))))⟩
    · obtain ⟨t, htm, hteq⟩ := List.mem_map.mp hB
      obtain ⟨ck, pid, hm2⟩ := termLoopQueued_forward_mem fwId exId
        destroyed msg fresh ex.queuedTasks
        (Slave.termLoopLaunched fwId exId destroyed msg fresh
          (s.updateExecutor fwId exId
            { ex with state := ExecState.TERMINATED }, [], false)
          ex.launchedTasks) t htm
      subst hteq
      exact ⟨ck, pid, List.mem_append.mpr (Or.inl (List.mem_append.mpr
        (Or.inl (List.mem_append.mpr (Or.inr hm2)))))⟩
  · have hflag : (Slave.termLoopQueued fwId exId destroyed msg fresh
        (Slave.termLoopLaunched fwId exId destroyed msg fresh
          (s.updateExecutor fwId exId
            { ex with state := ExecState.TERMINATED }, [], false)
          ex.launchedTasks) ex.queuedTasks).2.2 = lastCmdFlag ex := by
      rw [termLoopQueued_flag fwId exId destroyed msg fresh
          ex.queuedTasks _,
        termLoopLaunched_flag fwId exId destroyed msg fresh
          ex.launchedTasks _]
      unfold lastCmdFlag
      rw [List.foldl_append]
    constructor
    · intro hm
      by_contra hne
      have hft : lastCmdFlag ex = true := by
        cases h : lastCmdFlag ex
        · exact absurd h hne
        · rfl
      rw [hflag, hft] at hm
      simp only [Bool.not_true, Bool.false_eq_true, if_false,
        List.append_nil, List.mem_append, List.mem_singleton] at hm
      rcases hm with (hm1 | hm1) | hm1
      · exact Output.noConfusion hm1
      · exact termLoopQueued_no_exited fwId exId destroyed msg fresh
          s.master fwId exId status ex.queuedTasks _
          (termLoopLaunched_no_exited fwId exId destroyed msg fresh
            s.master fwId exId status ex.launchedTasks _
            (List.not_mem_nil _)) hm1
      · exact cleanup_no_exited _ fwId exId s.master fwId exId status hm1
    · intro hf
      rw [hflag, hf]
      simp only [Bool.not_false, if_true, List.mem_append,
        List.mem_singleton]
      exact Or.inl (Or.inr trivial)

/-- C5 counterexample: `c5Exec` is a command executor (its launched task
`t2` is a command task), yet because that task is already terminal the
`isCommandExecutor` flag is never set and `executorTerminated` sends
`ExitedExecutor` to the master anyway — refuting "an ExitedExecutor message
is sent iff the executor is not a command executor". -/
theorem C5_counterexample :
    isCommandExecutorSpec c5cExec = true ∧
    Output.sendExitedExecutor "master@host" "f1" "e1" 9 ∈
      (Slave.executorTerminated c5cState "f1" "e1" 9 false "m"
        (fun t => t)).2 := by
  decide

/-- C5 witness: on `c5wState` (one live launched task, no queued tasks)
every claimed termination update is forwarded and `ExitedExecutor` is sent
iff the final flag is false. -/
theorem C5_termination_updates_witness :
    (∀ u ∈ claimedTerminationUpdates "f1" c5wExec false "m" (fun t => t),
      ∃ ck pid, Output.forwardUpdate u ck pid ∈
        (Slave.executorTerminated c5wState "f1" "e1" 7 false "m"
          (fun t => t)).2) ∧
    (Output.sendExitedExecutor c5wState.master "f1" "e1" 7 ∈
        (Slave.executorTerminated c5wState "f1" "e1" 7 false "m"
          (fun t => t)).2 ↔
      lastCmdFlag c5wExec = false) :=
  C5_termination_updates c5wState "f1" "e1" 7 false "m" (fun t => t)
    (mkFw .RUNNING [c5wExec]) c5wExec rfl rfl (by decide) (by decide)
    (by decide)

end Mesos
